import Mathlib

set_option maxRecDepth 100000

/-!
Verification development for the fat32 reader repository.

The backing disk image is modelled as a `List Nat` of byte values; reads use
`List.getD` and writes use `List.set`. Rust strings that hold file or
directory names are modelled as their UTF-8 byte sequences (`List Nat`);
the byte-level trim and ASCII case functions below coincide with the Rust
`str::trim`, `to_lowercase` and `eq_ignore_ascii_case` operations on ASCII
content, which is the only content the 8.3 name format produces.
-/

/-- Byte read: `data[i]` with default 0.  The Rust code either bounds-checks
before indexing or would abort on an out-of-range index; theorems that depend
on a read carry the corresponding bounds hypothesis. -/
def getB (data : List Nat) (i : Nat) : Nat := data.getD i 0

/-- Little-endian 16-bit read, as `u16::from_le_bytes`. -/
def leU16 (data : List Nat) (off : Nat) : Nat :=
  getB data off + 256 * getB data (off + 1)

/-- Little-endian 32-bit read, as `u32::from_le_bytes`. -/
def leU32 (data : List Nat) (off : Nat) : Nat :=
  getB data off + 256 * getB data (off + 1) +
    65536 * getB data (off + 2) + 16777216 * getB data (off + 3)

/-- Little-endian byte decomposition of a 16-bit value, as `u16::to_le_bytes`. -/
def bytesOfU16 (v : Nat) : List Nat := [v % 256, v / 256 % 256]

/-- Little-endian byte decomposition of a 32-bit value, as `u32::to_le_bytes`. -/
def bytesOfU32 (v : Nat) : List Nat :=
  [v % 256, v / 256 % 256, v / 65536 % 256, v / 16777216 % 256]

/-- Write a byte sequence at an offset, as `copy_from_slice` on a subrange. -/
def writeBytesAt (data : List Nat) (off : Nat) : List Nat → List Nat
  | [] => data
  | b :: bs => writeBytesAt (data.set off b) (off + 1) bs

/-- Contiguous subrange `data[off .. off+n)`, as Rust slice indexing. -/
def sliceB (data : List Nat) (off n : Nat) : List Nat := (data.drop off).take n

/-- ASCII lower-casing of one byte, as `u8::to_ascii_lowercase`. -/
def asciiLower (b : Nat) : Nat := if 65 ≤ b ∧ b ≤ 90 then b + 32 else b

/-- ASCII upper-casing of one byte, as `u8::to_ascii_uppercase`. -/
def asciiUpper (b : Nat) : Nat := if 97 ≤ b ∧ b ≤ 122 then b - 32 else b

/-- Bytewise lower-casing of a byte string. -/
def lowerB (l : List Nat) : List Nat := l.map asciiLower

/-- ASCII whitespace bytes, the bytes `char::is_whitespace` accepts below 0x80. -/
def wsB (b : Nat) : Bool := b == 9 || b == 10 || b == 11 || b == 12 || b == 13 || b == 32

/-- Trim from the left, as the front half of `str::trim`. -/
def trimLeftB (l : List Nat) : List Nat := l.dropWhile wsB

/-- Trim from the right. -/
def trimRightB (l : List Nat) : List Nat := (l.reverse.dropWhile wsB).reverse

/-- Byte-level model of `str::trim` (exact on ASCII content). -/
def trimB (l : List Nat) : List Nat := trimRightB (trimLeftB l)

/-- Split a byte string on a separator byte, as `str::split`: `n` separators
yield `n + 1` pieces, empty pieces included. -/
def splitB (sep : Nat) : List Nat → List (List Nat)
  | [] => [[]]
  | b :: bs =>
    match splitB sep bs with
    | [] => [[]]
    | cur :: rest => if b = sep then [] :: cur :: rest else (b :: cur) :: rest

/-- Rust `eq_ignore_ascii_case` on byte strings. -/
def eqIgnoreAsciiCase (a b : List Nat) : Prop := lowerB a = lowerB b

instance (a b : List Nat) : Decidable (eqIgnoreAsciiCase a b) := by
  unfold eqIgnoreAsciiCase; infer_instance

/-!
## Embedding of `src/src/fat32/volume.rs` (`Fat32Volume`)

The volume owns a mutable byte range; mutating methods here take the byte
range and return the updated one.  Display-string assembly in
`list_directory` (the `format!` calls) is presentation; the scan is modelled
as the structured record the format string is built from.
-/

namespace FatVol

/-- Boot sector fields, as the `BootSector` struct of `src/src/fat32/structs.rs`
(field widths: u16 / u8 / u32 as noted in the source). -/
structure BootSector where
  bytes_per_sector : Nat      -- u16
  sectors_per_cluster : Nat   -- u8
  reserved_sectors : Nat      -- u16
  number_of_fats : Nat        -- u8
  root_entries : Nat          -- u16
  total_sectors_16 : Nat      -- u16
  media_descriptor : Nat      -- u8
  sectors_per_fat_16 : Nat    -- u16
  sectors_per_track : Nat     -- u16
  heads : Nat                 -- u16
  hidden_sectors : Nat        -- u32
  total_sectors_32 : Nat      -- u32
  sectors_per_fat_32 : Nat    -- u32
  ext_flags : Nat             -- u16
  fs_version : Nat            -- u16
  root_dir_cluster : Nat      -- u32
  deriving Repr, DecidableEq

/-- `Fat32Volume::new`: parse the boot sector fields little-endian at fixed
offsets.  The Rust constructor is infallible; it performs no signature or
structural validation. -/
def volumeNew (data : List Nat) : BootSector :=
  { bytes_per_sector := leU16 data 11
    sectors_per_cluster := getB data 13
    reserved_sectors := leU16 data 14
    number_of_fats := getB data 16
    root_entries := leU16 data 17
    total_sectors_16 := leU16 data 19
    media_descriptor := getB data 21
    sectors_per_fat_16 := leU16 data 22
    sectors_per_track := leU16 data 24
    heads := leU16 data 26
    hidden_sectors := leU32 data 28
    total_sectors_32 := leU32 data 32
    sectors_per_fat_32 := leU32 data 36
    ext_flags := leU16 data 40
    fs_version := leU16 data 42
    root_dir_cluster := leU32 data 44 }

/-- `Fat32Volume::offset_from_cluster`.  The u64 arithmetic of the source is
exact here: with the boot-sector field widths every intermediate value is
below `2^57`, so no u64 wrap can occur and the `as usize` cast (64-bit
target) is the identity. -/
def offset_from_cluster (bs : BootSector) (cluster : Nat) : Nat :=
  let first_data_sector := bs.reserved_sectors + bs.number_of_fats * bs.sectors_per_fat_32
  let cluster_num := if cluster < 2 then 2 else cluster
  let cluster_offset := (cluster_num - 2) * bs.sectors_per_cluster
  (first_data_sector + cluster_offset) * bs.bytes_per_sector

/-- Byte offset of the first FAT, `reserved_sectors * bytes_per_sector`. -/
def fatStart (bs : BootSector) : Nat := bs.reserved_sectors * bs.bytes_per_sector

/-- Entry count scanned by the allocator:
`(sectors_per_fat_32 * bytes_per_sector as u32) / 4`, with the u32 wrap of
the source multiplication made explicit. -/
def totalClusters (bs : BootSector) : Nat :=
  bs.sectors_per_fat_32 * bs.bytes_per_sector % 4294967296 / 4

/-- Loop body of `Fat32Volume::allocate_cluster`: try indices `i`, `i+1`, ...
for `fuel` steps; at the first zero FAT entry write the end-of-chain marker
and return the index together with the updated byte range. -/
def allocLoop (fs : Nat) : List Nat → Nat → Nat → Option Nat × List Nat
  | data, _, 0 => (none, data)
  | data, i, fuel + 1 =>
    let off := fs + i * 4
    if leU32 data off = 0 then
      (some i, writeBytesAt data off (bytesOfU32 0x0FFFFFFF))
    else
      allocLoop fs data (i + 1) fuel

/-- `Fat32Volume::allocate_cluster`: scan FAT entries 3 .. totalClusters of
the first FAT for the first zero entry. -/
def allocate_cluster (data : List Nat) (bs : BootSector) : Option Nat × List Nat :=
  allocLoop (fatStart bs) data 3 (totalClusters bs - 3)

/-- One scanned directory record, the data `list_directory` formats for
display: trimmed name and extension bytes, the directory flag, and the size. -/
structure DirEnt where
  name : List Nat
  ext : List Nat
  is_dir : Bool
  size : Nat
  deriving Repr, DecidableEq

/-- The record at `cursor`, with the fields `list_directory` extracts. -/
def entryAt (data : List Nat) (cursor : Nat) : DirEnt :=
  { name := trimB (sliceB data cursor 8)
    ext := trimB (sliceB data (cursor + 8) 3)
    is_dir := getB data (cursor + 11) &&& 0x10 != 0
    size := leU32 data (cursor + 28) }

/-- The displayed name, `if is_dir || ext.is_empty() { name } else { name.ext }`. -/
def DirEnt.full_name (e : DirEnt) : List Nat :=
  if e.is_dir || e.ext.isEmpty then e.name else e.name ++ [46] ++ e.ext

/-- Combined starting cluster `(high16 << 16) | low16` from record offsets
20-21 and 26-27, shared by `change_directory` and `read_file`. -/
def recClusterAt (data : List Nat) (cursor : Nat) : Nat :=
  leU16 data (cursor + 20) <<< 16 ||| leU16 data (cursor + 26)

/-- Loop body of `Fat32Volume::list_directory` (cap 128 records). -/
def listLoop (data : List Nat) : Nat → Nat → List DirEnt
  | 0, _ => []
  | fuel + 1, cursor =>
    if cursor + 32 > data.length then []
    else if getB data cursor = 0 then []
    else if getB data cursor = 0xE5 then listLoop data fuel (cursor + 32)
    else
      let attr := getB data (cursor + 11)
      if attr ≠ 0x0F ∧ attr &&& 0x08 = 0 then
        entryAt data cursor :: listLoop data fuel (cursor + 32)
      else
        listLoop data fuel (cursor + 32)

/-- `Fat32Volume::list_directory`. -/
def list_directory (data : List Nat) (bs : BootSector) (cluster : Nat) : List DirEnt :=
  listLoop data 128 (offset_from_cluster bs cluster)

/-- The trimmed 8-byte name part of the record at `cursor`. -/
def namePartAt (data : List Nat) (cursor : Nat) : List Nat :=
  trimB (sliceB data cursor 8)

/-- The trimmed 3-byte extension part of the record at `cursor`. -/
def extPartAt (data : List Nat) (cursor : Nat) : List Nat :=
  trimB (sliceB data (cursor + 8) 3)

/-- Full name of the record at `cursor` as `read_file` builds it:
`name` when the extension is empty, else `name.ext`. -/
def fullNameAt (data : List Nat) (cursor : Nat) : List Nat :=
  if extPartAt data cursor = [] then namePartAt data cursor
  else namePartAt data cursor ++ [46] ++ extPartAt data cursor

/-- Errors of `Fat32Volume::change_directory` (the source reports them as
static strings: not a directory / directory not found). -/
inductive CdErr where
  | notADirectory
  | notFound
  deriving Repr, DecidableEq

/-- Loop body of `Fat32Volume::change_directory` (cap 128): both the bounds
break, the terminator break and fuel exhaustion fall through to the
not-found error of the source.  On success the new current cluster is
returned, with a combined cluster of 0 aliased to the boot-sector root. -/
def cdLoop (data : List Nat) (bs : BootSector) (dirname : List Nat) :
    Nat → Nat → Except CdErr Nat
  | 0, _ => .error .notFound
  | fuel + 1, cursor =>
    if cursor + 32 > data.length then .error .notFound
    else if getB data cursor = 0 then .error .notFound
    else if eqIgnoreAsciiCase (namePartAt data cursor) dirname ∨
            eqIgnoreAsciiCase (fullNameAt data cursor) dirname then
      if getB data (cursor + 11) &&& 0x10 ≠ 0 then
        let cluster := recClusterAt data cursor
        .ok (if cluster = 0 then bs.root_dir_cluster else cluster)
      else
        .error .notADirectory
    else
      cdLoop data bs dirname fuel (cursor + 32)

/-- `Fat32Volume::change_directory`: returns the new current cluster. -/
def change_directory (data : List Nat) (bs : BootSector) (cur : Nat)
    (dirname : List Nat) : Except CdErr Nat :=
  if dirname = [46] then .ok cur
  else cdLoop data bs dirname 128 (offset_from_cluster bs cur)

/-- Errors of `Fat32Volume::read_file` (source strings: it is a directory,
use cd / file not found). -/
inductive RfErr where
  | isADirectory
  | notFound
  deriving Repr, DecidableEq

/-- Loop body of `Fat32Volume::read_file` (cap 128).  Note the source shape:
when the matched entry passes the directory check but its data range is out
of bounds, no error is raised; the loop falls through to the next record and
can only end in the not-found error. -/
def rfLoop (data : List Nat) (bs : BootSector) (filename : List Nat) :
    Nat → Nat → Except RfErr (List Nat)
  | 0, _ => .error .notFound
  | fuel + 1, cursor =>
    if cursor + 32 > data.length then .error .notFound
    else if getB data cursor = 0 then .error .notFound
    else if eqIgnoreAsciiCase (fullNameAt data cursor) filename then
      if getB data (cursor + 11) &&& 0x10 ≠ 0 then .error .isADirectory
      else
        let cluster := recClusterAt data cursor
        let size := leU32 data (cursor + 28)
        let data_offset := offset_from_cluster bs cluster
        if data_offset + size ≤ data.length then .ok (sliceB data data_offset size)
        else rfLoop data bs filename fuel (cursor + 32)
    else
      rfLoop data bs filename fuel (cursor + 32)

/-- `Fat32Volume::read_file`. -/
def read_file (data : List Nat) (bs : BootSector) (cur : Nat)
    (filename : List Nat) : Except RfErr (List Nat) :=
  rfLoop data bs filename 128 (offset_from_cluster bs cur)

/-- The byte string UNKNOWN, default name part when `split('.')` has no piece. -/
def unknownB : List Nat := [85, 78, 75, 78, 79, 87, 78]

/-- Three spaces, the default extension of `write_dir_entry`. -/
def spaces3 : List Nat := [32, 32, 32]

/-- Space-pad a byte string on the right to length `n`. -/
def padTo (n : Nat) (l : List Nat) : List Nat := l ++ List.replicate (n - l.length) 0x20

/-- The 11-byte 8.3 name field `write_dir_entry` builds: an all-space buffer
overwritten with the upper-cased first 8 name bytes and first 3 extension
bytes. -/
def nameField (nm ex : List Nat) : List Nat :=
  padTo 8 ((nm.take 8).map asciiUpper) ++ padTo 3 ((ex.take 3).map asciiUpper)

/-- The 32-byte record installation of `write_dir_entry` at slot `cursor`:
name field at 0-10, attribute 0x20 at 11, cluster high half at 20-21, low
half at 26-27, size at 28-31; bytes 12-19 and 22-25 keep their old values. -/
def installRecord (data : List Nat) (cursor : Nat) (filename : List Nat)
    (cluster size : Nat) : List Nat :=
  let parts := splitB 46 filename
  let nm := parts.getD 0 unknownB
  let ex := parts.getD 1 spaces3
  let d1 := writeBytesAt data cursor (nameField nm ex)
  let d2 := d1.set (cursor + 11) 0x20
  let d3 := writeBytesAt d2 (cursor + 20) (bytesOfU16 (cluster >>> 16 % 65536))
  let d4 := writeBytesAt d3 (cursor + 26) (bytesOfU16 (cluster % 65536))
  writeBytesAt d4 (cursor + 28) (bytesOfU32 size)

/-- Loop body of `Fat32Volume::write_dir_entry` (cap 64 slots): install the
record at the first slot whose marker byte is 0x00 or 0xE5. -/
def wdLoop (filename : List Nat) (cluster size : Nat) :
    List Nat → Nat → Nat → Except Unit (List Nat)
  | _, 0, _ => .error ()
  | data, fuel + 1, cursor =>
    if getB data cursor = 0 ∨ getB data cursor = 0xE5 then
      .ok (installRecord data cursor filename cluster size)
    else
      wdLoop filename cluster size data fuel (cursor + 32)

/-- `Fat32Volume::write_dir_entry` (error: directory full). -/
def write_dir_entry (data : List Nat) (dirOff : Nat) (filename : List Nat)
    (cluster size : Nat) : Except Unit (List Nat) :=
  wdLoop filename cluster size data 64 dirOff

/-- Errors of `Fat32Volume::create_file` (source strings: disk full /
directory full). -/
inductive CreateErr where
  | outOfSpace
  | directoryFull
  deriving Repr, DecidableEq

/-- `Fat32Volume::create_file`: allocate one cluster, copy the content bytes
into its region unchecked (the source has no size guard), then install the
directory entry with size `content.len() as u32`. -/
def create_file (data : List Nat) (bs : BootSector) (cur : Nat)
    (filename content : List Nat) : Except CreateErr (List Nat) :=
  match allocate_cluster data bs with
  | (none, _) => .error .outOfSpace
  | (some free, d1) =>
    let d2 := writeBytesAt d1 (offset_from_cluster bs free) content
    match write_dir_entry d2 (offset_from_cluster bs cur) filename free
        (content.length % 4294967296) with
    | .error _ => .error .directoryFull
    | .ok d3 => .ok d3

end FatVol

/-!
## Embedding of `src/fat32_reader/src/fat32.rs` (`Fat32Image`)

This variant reads the image through seek / `read_exact`; a read past the
end of the file is an io error that the methods propagate.  Reading a
32-byte record at `cursor` therefore succeeds exactly when
`cursor + 32 ≤ data.length`.
-/

namespace FatImg

/-- Boot sector fields of `src/fat32_reader/src/structs.rs`. -/
structure BootSector where
  bytes_per_sector : Nat      -- u16
  sectors_per_cluster : Nat   -- u8
  reserved_sector : Nat       -- u16
  number_of_fats : Nat        -- u8
  sectors_per_fat : Nat       -- u32
  root_dir_cluster : Nat      -- u32
  deriving Repr, DecidableEq

/-- `Fat32Image::new`: seek to the fixed offsets and read the six geometry
fields little-endian; fails (io error) when the image is shorter than the
last field read (offsets 44-47). -/
def imgNew (data : List Nat) : Option BootSector :=
  if 48 ≤ data.length then
    some { bytes_per_sector := leU16 data 11
           sectors_per_cluster := getB data 13
           reserved_sector := leU16 data 14
           number_of_fats := getB data 16
           sectors_per_fat := leU32 data 36
           root_dir_cluster := leU32 data 44 }
  else none

/-- `Fat32Image::offset_from_cluster`.  Unlike the `Fat32Volume` variant this
one does not clamp: `(cluster as u64 - 2)` is modelled with the explicit
u64 wrap of a release build (a debug build aborts on the underflow instead;
either way no clamping to cluster 2 happens). -/
def offset_from_cluster (bs : BootSector) (cluster : Nat) : Nat :=
  let first_data_sector := bs.reserved_sector + bs.number_of_fats * bs.sectors_per_fat
  let cluster_offset := (cluster + 18446744073709551614) % 18446744073709551616 *
    bs.sectors_per_cluster % 18446744073709551616
  (first_data_sector + cluster_offset) % 18446744073709551616 *
    bs.bytes_per_sector % 18446744073709551616

/-- `format_name`: trim the 8-byte name part and the 3-byte extension part,
join with a dot when the extension is nonempty, lower-case the result. -/
def format_name (bytes11 : List Nat) : List Nat :=
  let name_str := trimB (bytes11.take 8)
  let ext_str := trimB ((bytes11.drop 8).take 3)
  if ext_str = [] then lowerB name_str else lowerB (name_str ++ [46] ++ ext_str)

/-- Combined starting cluster from record offsets 20-21 and 26-27. -/
def recClusterAt (data : List Nat) (cursor : Nat) : Nat :=
  leU16 data (cursor + 20) <<< 16 ||| leU16 data (cursor + 26)

/-- Loop body of `Fat32Image::find_sub_directory` (cap 100 records).  The
error case is the propagated io error of a failed 32-byte read; the
terminator, a fruitless scan and a name match on a non-directory entry all
yield `ok none`.  A matched directory entry with combined cluster 0 is
aliased to the constant cluster 2. -/
def findLoop (data : List Nat) (target : List Nat) : Nat → Nat → Except Unit (Option Nat)
  | 0, _ => .ok none
  | fuel + 1, cursor =>
    if cursor + 32 > data.length then .error ()
    else if getB data cursor = 0 then .ok none
    else if getB data cursor = 0xE5 then findLoop data target fuel (cursor + 32)
    else if getB data (cursor + 11) = 0x0F then findLoop data target fuel (cursor + 32)
    else if format_name (sliceB data cursor 11) = target then
      if getB data (cursor + 11) &&& 0x10 ≠ 0 then
        let c := recClusterAt data cursor
        .ok (some (if c = 0 then 2 else c))
      else .ok none
    else findLoop data target fuel (cursor + 32)

/-- `Fat32Image::find_sub_directory`: compare each record name against the
lower-cased target starting at the directory cluster offset. -/
def find_sub_directory (data : List Nat) (bs : BootSector) (cur : Nat)
    (dirname : List Nat) : Except Unit (Option Nat) :=
  findLoop data (lowerB dirname) 100 (offset_from_cluster bs cur)

/-- Errors of `Fat32Image::resolve_path`: a propagated io error, or the
NotFound error naming the segment that failed to resolve. -/
inductive ResErr where
  | ioErr
  | notFound (seg : List Nat)
  deriving Repr, DecidableEq

/-- The parent-directory walk of `resolve_path`: advance through
`find_sub_directory`, stopping at the first io error or unresolved segment. -/
def walkParents (data : List Nat) (bs : BootSector) : Nat → List (List Nat) → Except ResErr Nat
  | c, [] => .ok c
  | c, d :: ds =>
    match find_sub_directory data bs c d with
    | .error _ => .error .ioErr
    | .ok none => .error (.notFound d)
    | .ok (some c2) => walkParents data bs c2 ds

/-- `Fat32Image::resolve_path`: a leading slash switches the start to the
boot-sector root cluster and drops that byte; the rest is split on slashes,
empty segments are discarded; the last segment is the leaf name and the
remaining segments are walked through `find_sub_directory`. -/
def resolve_path (data : List Nat) (bs : BootSector) (start : Nat) (path : List Nat) :
    Except ResErr (Nat × Option (List Nat)) :=
  let c0 := if path.head? = some 47 then bs.root_dir_cluster else start
  let p := if path.head? = some 47 then path.tail else path
  let parts := (splitB 47 p).filter (fun s => !s.isEmpty)
  match parts.getLast? with
  | none => .ok (c0, none)
  | some leaf =>
    match walkParents data bs c0 parts.dropLast with
    | .error e => .error e
    | .ok c => .ok (c, some leaf)

/-- Reference formulation of path resolution, following the words of the
specification (section 4.4): walk the nonempty segments directly; with no
segment return the directory itself; with one segment left return it as the
leaf name; otherwise the next segment must resolve to a subdirectory, and
the walk aborts with NotFound naming the first segment that fails. -/
def resolveGo (data : List Nat) (bs : BootSector) :
    Nat → List (List Nat) → Except ResErr (Nat × Option (List Nat))
  | c, [] => .ok (c, none)
  | c, [leaf] => .ok (c, some leaf)
  | c, d :: rest =>
    match find_sub_directory data bs c d with
    | .error _ => .error .ioErr
    | .ok none => .error (.notFound d)
    | .ok (some c2) => resolveGo data bs c2 rest

/-- Reference path resolution following the specification text. -/
def resolveRef (data : List Nat) (bs : BootSector) (start : Nat) (path : List Nat) :
    Except ResErr (Nat × Option (List Nat)) :=
  let c0 := if path.head? = some 47 then bs.root_dir_cluster else start
  let p := if path.head? = some 47 then path.tail else path
  resolveGo data bs c0 ((splitB 47 p).filter (fun s => !s.isEmpty))

end FatImg

/-!
## Embedding of `src/src/bpb.rs` (`BiosParameterBlock::new`)
-/

namespace Bpb

/-- Failure modes of `BiosParameterBlock::new`: the 512-byte read fails, or
the trailing signature bytes are wrong (the format error). -/
inductive BpbErr where
  | ioError
  | formatError
  deriving Repr, DecidableEq

/-- The `BiosParameterBlock` struct of `src/src/bpb.rs`. -/
structure BiosParameterBlock where
  bytes_per_sector : Nat      -- u16
  sectors_per_cluster : Nat   -- u8
  reserved_sectors : Nat      -- u16
  num_fats : Nat              -- u8
  root_entries : Nat          -- u16
  total_sectors_16 : Nat      -- u16
  media : Nat                 -- u8
  fat_size_16 : Nat           -- u16
  sectors_per_track : Nat     -- u16
  num_heads : Nat             -- u16
  hidden_sectors : Nat        -- u32
  total_sectors_32 : Nat      -- u32
  fat_size_32 : Nat           -- u32
  ext_flags : Nat             -- u16
  fs_version : Nat            -- u16
  root_cluster : Nat          -- u32
  fs_info : Nat               -- u16
  backup_boot_sector : Nat    -- u16
  deriving Repr, DecidableEq

/-- `BiosParameterBlock::new`: read the first 512 bytes, reject the image
when bytes 510-511 are not 0x55, 0xAA, otherwise parse the fields
little-endian at their fixed offsets. -/
def bpbNew (data : List Nat) : Except BpbErr BiosParameterBlock :=
  if 512 ≤ data.length then
    if getB data 510 ≠ 0x55 ∨ getB data 511 ≠ 0xAA then .error .formatError
    else
      .ok { bytes_per_sector := leU16 data 11
            sectors_per_cluster := getB data 13
            reserved_sectors := leU16 data 14
            num_fats := getB data 16
            root_entries := leU16 data 17
            total_sectors_16 := leU16 data 19
            media := getB data 21
            fat_size_16 := leU16 data 22
            sectors_per_track := leU16 data 24
            num_heads := leU16 data 26
            hidden_sectors := leU32 data 28
            total_sectors_32 := leU32 data 32
            fat_size_32 := leU32 data 36
            ext_flags := leU16 data 40
            fs_version := leU16 data 42
            root_cluster := leU32 data 44
            fs_info := leU16 data 48
            backup_boot_sector := leU16 data 50 }
  else .error .ioError

end Bpb

/-!
## Concrete volumes used by scenario theorems, witnesses and counterexamples
-/

/-- Apply a list of `(index, byte)` writes to a byte range. -/
def setPairs (d : List Nat) : List (Nat × Nat) → List Nat
  | [] => d
  | p :: ps => setPairs (d.set p.1 p.2) ps

/-- A small 224-byte volume: bytes-per-sector 32, sectors-per-cluster 1,
2 reserved sectors, 1 FAT of 1 sector, root cluster 2.  Layout: FAT at
64-95 (entries 0-7, all free), cluster 2 at 96, cluster 3 at 128,
cluster 4 at 160. -/
def smallData : List Nat :=
  setPairs (List.replicate 224 0) [(11, 32), (13, 1), (14, 2), (16, 1), (36, 1), (44, 2)]

/-- Geometry of `smallData`, obtained through the `Fat32Volume::new` parse. -/
def smallBs : FatVol.BootSector := FatVol.volumeNew smallData

/-- The byte string a.txt. -/
def aTxtB : List Nat := [97, 46, 116, 120, 116]

/-- The byte string b.txt. -/
def bTxtB : List Nat := [98, 46, 116, 120, 116]

/-- The byte string hi. -/
def hiB : List Nat := [104, 105]

/-- The volume after `create_file(2, "a.txt", b"hi")` on `smallData`. -/
def smallCreated : List Nat :=
  (FatVol.create_file smallData smallBs 2 aTxtB hiB).toOption.getD []

/-- `smallData` with FAT entry 3 already taken: the first free entry is 4. -/
def halfFatData : List Nat :=
  setPairs (List.replicate 224 0)
    [(11, 32), (13, 1), (14, 2), (16, 1), (36, 1), (44, 2), (76, 1)]

/-- `smallData` with every FAT entry from index 3 on nonzero. -/
def fullFatData : List Nat :=
  setPairs (List.replicate 224 0)
    [(11, 32), (13, 1), (14, 2), (16, 1), (36, 1), (44, 2),
     (76, 1), (80, 1), (84, 1), (88, 1), (92, 1)]

/-- The `smallData` geometry with one directory entry in cluster 2:
name `B.TXT`, file attribute 0x20, start cluster 3, size 256.  The data
range ends at 224, so the 256-byte content range of the entry is out of
bounds. -/
def dataC4 : List Nat :=
  setPairs (List.replicate 224 0)
    [(11, 32), (13, 1), (14, 2), (16, 1), (36, 1), (44, 2),
     (96, 66), (97, 32), (98, 32), (99, 32), (100, 32), (101, 32), (102, 32), (103, 32),
     (104, 84), (105, 88), (106, 84), (107, 32), (122, 3), (125, 1)]

/-- The `smallData` geometry, root cluster 7, with one directory entry in
cluster 2: name `SUB`, directory attribute 0x10, start cluster 0. -/
def dataCd : List Nat :=
  setPairs (List.replicate 224 0)
    [(11, 32), (13, 1), (14, 2), (16, 1), (36, 1), (44, 7),
     (96, 83), (97, 85), (98, 66), (99, 32), (100, 32), (101, 32), (102, 32), (103, 32),
     (104, 32), (105, 32), (106, 32), (107, 16)]

/-- A 192-byte image whose boot sector names root cluster 5 (geometry
otherwise: bytes-per-sector 32, 1 sector per cluster, 1 reserved sector,
1 FAT of 1 sector), with one directory entry in cluster 5 (byte offset 160):
name `SUB`, directory attribute 0x10, start cluster 0. -/
def dataC8 : List Nat :=
  setPairs (List.replicate 192 0)
    [(11, 32), (13, 1), (14, 1), (16, 1), (36, 1), (44, 5),
     (160, 83), (161, 85), (162, 66), (163, 32), (164, 32), (165, 32), (166, 32), (167, 32),
     (168, 32), (169, 32), (170, 32), (171, 16)]

/-- The geometry `Fat32Image::new` reads off `dataC8`. -/
def bsC8 : FatImg.BootSector :=
  { bytes_per_sector := 32, sectors_per_cluster := 1, reserved_sector := 1,
    number_of_fats := 1, sectors_per_fat := 1, root_dir_cluster := 5 }

/-- The byte string sub. -/
def subB : List Nat := [115, 117, 98]

/-- A 512-byte image with the geometry of the unit tests of `volume.rs`
(bytes-per-sector 512, 1 sector per cluster, 32 reserved sectors, 2 FATs of
100 sectors, root cluster 2) and an invalid boot signature: bytes 510-511
are 0, not 0x55 0xAA. -/
def dataBadSig : List Nat :=
  setPairs (List.replicate 512 0)
    [(11, 0), (12, 2), (13, 1), (14, 32), (16, 2), (36, 100), (44, 2)]

/-- The geometry of the `volume.rs` unit tests, as a `FatVol.BootSector`. -/
def mockBs : FatVol.BootSector :=
  { bytes_per_sector := 512, sectors_per_cluster := 1, reserved_sectors := 32,
    number_of_fats := 2, root_entries := 0, total_sectors_16 := 0, media_descriptor := 0,
    sectors_per_fat_16 := 0, sectors_per_track := 0, heads := 0, hidden_sectors := 0,
    total_sectors_32 := 0, sectors_per_fat_32 := 100, ext_flags := 0, fs_version := 0,
    root_dir_cluster := 2 }

/-- The same geometry as a `FatImg.BootSector`. -/
def mockBsImg : FatImg.BootSector :=
  { bytes_per_sector := 512, sectors_per_cluster := 1, reserved_sector := 32,
    number_of_fats := 2, sectors_per_fat := 100, root_dir_cluster := 2 }

/-- Field-width invariant of a parsed `FatImg.BootSector` (u16 / u8 / u32). -/
def FatImg.BootSector.Wf (bs : FatImg.BootSector) : Prop :=
  bs.bytes_per_sector < 65536 ∧ bs.sectors_per_cluster < 256 ∧
    bs.reserved_sector < 65536 ∧ bs.number_of_fats < 256 ∧
    bs.sectors_per_fat < 4294967296

instance (bs : FatImg.BootSector) : Decidable bs.Wf := by
  unfold FatImg.BootSector.Wf; infer_instance

/-- A printable ASCII byte that is neither a dot, a space nor any other
whitespace: the characters for which the 8.3 round trip is exact. -/
def goodChar (b : Nat) : Prop := 33 ≤ b ∧ b ≤ 126 ∧ b ≠ 46

instance (b : Nat) : Decidable (goodChar b) := by
  unfold goodChar; infer_instance

/-- Byte offset of the second FAT copy in the standard FAT32 layout: the
first FAT start plus one FAT length.  The code never writes to this region;
the definition only serves to state that fact. -/
def FatVol.fat2Start (bs : FatVol.BootSector) : Nat :=
  FatVol.fatStart bs + bs.sectors_per_fat_32 * bs.bytes_per_sector

/-- A 40-byte range whose first record starts with the 0x00 terminator and
is followed by nonzero garbage bytes. -/
def dataTerm : List Nat := 0 :: List.replicate 39 9

/-- A 64-byte range whose first record is a deleted entry (marker 0xE5). -/
def dataDel : List Nat := 229 :: List.replicate 63 0

/-- A 64-byte range whose first record has attribute 0x0F (long-name
fragment). -/
def dataLfn : List Nat := setPairs (List.replicate 64 0) [(0, 65), (11, 0x0F)]

/-- A 64-byte range whose first record has the volume-label bit 0x08 set. -/
def dataVolLabel : List Nat := setPairs (List.replicate 64 0) [(0, 65), (11, 0x08)]

/-- A 64-byte range whose first record is a live file entry (attribute
0x20). -/
def dataFile : List Nat := setPairs (List.replicate 64 0) [(0, 65), (11, 0x20)]

/-- `dataC4` with the entry size corrected to 2 and content bytes `hi` at
cluster 3, so the read is in range. -/
def dataC4b : List Nat := setPairs dataC4 [(125, 0), (124, 2), (128, 104), (129, 105)]

/-- `dataBadSig` with a valid 0x55 0xAA signature installed. -/
def dataGoodSig : List Nat := setPairs dataBadSig [(510, 0x55), (511, 0xAA)]

/-- A 33-byte content, one byte more than the 32-byte cluster capacity of
the small volume. -/
def bigContent : List Nat := List.replicate 33 7

/-- The volume after `create_file(2, "b.txt", bigContent)` on `smallData`. -/
def c5Data : List Nat :=
  (FatVol.create_file smallData smallBs 2 bTxtB bigContent).toOption.getD []

/-- The byte string /sub/x. -/
def pathSubXB : List Nat := [47, 115, 117, 98, 47, 120]
-- ## Basic lemmas about the byte-level helpers

@[simp] theorem writeBytesAt_nil (data : List Nat) (off : Nat) :
    writeBytesAt data off [] = data := rfl

@[simp] theorem writeBytesAt_cons (data : List Nat) (off b : Nat) (bs : List Nat) :
    writeBytesAt data off (b :: bs) = writeBytesAt (data.set off b) (off + 1) bs := rfl

@[simp] theorem length_writeBytesAt (bs : List Nat) :
    ∀ (data : List Nat) (off : Nat), (writeBytesAt data off bs).length = data.length := by
  induction bs with
  | nil => intro data off; rfl
  | cons b bs ih => intro data off; simp [ih]

theorem getB_set_ne (data : List Nat) (i j b : Nat) (h : i ≠ j) :
    getB (data.set i b) j = getB data j := by
  simp [getB, List.getD, List.getElem?_set_ne h]

theorem getB_set_self (data : List Nat) (i b : Nat) (h : i < data.length) :
    getB (data.set i b) i = b := by
  simp [getB, List.getD, List.getElem?_set_self h]

theorem getB_writeBytesAt_lt (bs : List Nat) :
    ∀ (data : List Nat) (off p : Nat), p < off →
      getB (writeBytesAt data off bs) p = getB data p := by
  induction bs with
  | nil => intro data off p _; rfl
  | cons b bs ih =>
    intro data off p hp
    rw [writeBytesAt_cons, ih _ _ _ (by omega), getB_set_ne _ _ _ _ (by omega)]

theorem getB_writeBytesAt_ge (bs : List Nat) :
    ∀ (data : List Nat) (off p : Nat), off + bs.length ≤ p →
      getB (writeBytesAt data off bs) p = getB data p := by
  induction bs with
  | nil => intro data off p _; rfl
  | cons b bs ih =>
    intro data off p hp
    simp only [List.length_cons] at hp
    rw [writeBytesAt_cons, ih _ _ _ (by omega), getB_set_ne _ _ _ _ (by omega)]

theorem getB_writeBytesAt_in (bs : List Nat) :
    ∀ (data : List Nat) (off j : Nat), j < bs.length → off + bs.length ≤ data.length →
      getB (writeBytesAt data off bs) (off + j) = bs.getD j 0 := by
  induction bs with
  | nil => intro data off j hj _; simp at hj
  | cons b bs ih =>
    intro data off j hj hlen
    simp only [List.length_cons] at hj hlen
    rw [writeBytesAt_cons]
    cases j with
    | zero =>
      rw [getB_writeBytesAt_lt _ _ _ _ (by omega)]
      simpa using getB_set_self data off b (by omega)
    | succ j =>
      have := ih (data.set off b) (off + 1) j (by omega) (by simpa using by omega)
      have harg : off + (j + 1) = off + 1 + j := by omega
      rw [harg, this]
      rfl

/-- Frame rule for `writeBytesAt`: bytes outside the written window are unchanged. -/
theorem getB_writeBytesAt_frame (bs data : List Nat) (off p : Nat)
    (h : p < off ∨ off + bs.length ≤ p) :
    getB (writeBytesAt data off bs) p = getB data p := by
  rcases h with h | h
  · exact getB_writeBytesAt_lt bs data off p h
  · exact getB_writeBytesAt_ge bs data off p h

theorem slice_length (data : List Nat) (off n : Nat) (h : off + n ≤ data.length) :
    (sliceB data off n).length = n := by
  simp [sliceB]; omega

theorem getB_eq_getElem (data : List Nat) (i : Nat) (h : i < data.length) :
    getB data i = data[i] := by
  simp [getB, List.getD, List.getElem?_eq_getElem h]

theorem slice_getElem (data : List Nat) (off n i : Nat) (hn : off + n ≤ data.length)
    (hi : i < (sliceB data off n).length) :
    (sliceB data off n)[i] = getB data (off + i) := by
  have hi' : i < n := by simpa [slice_length data off n hn] using hi
  simp only [sliceB, List.getElem_take, List.getElem_drop]
  rw [getB_eq_getElem data (off + i) (by omega)]

/-- Two byte ranges that agree pointwise on a window have equal slices there. -/
theorem slice_eq_of_pointwise (d e : List Nat) (off n : Nat)
    (hd : off + n ≤ d.length) (he : off + n ≤ e.length)
    (h : ∀ i, i < n → getB d (off + i) = getB e (off + i)) :
    sliceB d off n = sliceB e off n := by
  apply List.ext_getElem
  · rw [slice_length d off n hd, slice_length e off n he]
  · intro i hi₁ hi₂
    rw [slice_getElem d off n i hd hi₁, slice_getElem e off n i he hi₂]
    exact h i (by simpa [slice_length d off n hd] using hi₁)

/-- Reading back a whole written window yields the written bytes. -/
theorem slice_writeBytesAt (bs data : List Nat) (off : Nat)
    (h : off + bs.length ≤ data.length) :
    sliceB (writeBytesAt data off bs) off bs.length = bs := by
  apply List.ext_getElem
  · rw [slice_length _ _ _ (by simpa using h)]
  · intro i hi₁ hi₂
    rw [slice_getElem _ _ _ _ (by simpa using h) hi₁,
      getB_writeBytesAt_in bs data off i (by simpa using hi₂) h]
    simp [List.getD, List.getElem?_eq_getElem hi₂]


/-!
## Lemmas about the cluster allocator
-/

theorem allocLoop_none (fs : Nat) (data : List Nat) :
    ∀ (fuel i : Nat), (∀ m, i ≤ m → m < i + fuel → leU32 data (fs + m * 4) ≠ 0) →
      FatVol.allocLoop fs data i fuel = (none, data) := by
  intro fuel
  induction fuel with
  | zero => intro i _; rfl
  | succ fuel ih =>
    intro i h
    have hi : ¬ leU32 data (fs + i * 4) = 0 := h i (le_refl i) (by omega)
    simp only [FatVol.allocLoop, if_neg hi]
    exact ih (i + 1) (fun m h1 h2 => h m (by omega) (by omega))

theorem allocLoop_some (fs : Nat) (data : List Nat) :
    ∀ (fuel i j : Nat), i ≤ j → j < i + fuel →
      leU32 data (fs + j * 4) = 0 →
      (∀ m, i ≤ m → m < j → leU32 data (fs + m * 4) ≠ 0) →
      FatVol.allocLoop fs data i fuel =
        (some j, writeBytesAt data (fs + j * 4) (bytesOfU32 0x0FFFFFFF)) := by
  intro fuel
  induction fuel with
  | zero => intro i j h1 h2 _ _; omega
  | succ fuel ih =>
    intro i j h1 h2 hz hmin
    by_cases hij : i = j
    · subst hij
      simp only [FatVol.allocLoop, if_pos hz]
    · have hi : ¬ leU32 data (fs + i * 4) = 0 := hmin i (le_refl i) (by omega)
      simp only [FatVol.allocLoop, if_neg hi]
      exact ih (i + 1) j (by omega) (by omega) hz (fun m hm1 hm2 => hmin m (by omega) hm2)

theorem leU32_writeBytesAt_frame (data ws : List Nat) (off off2 : Nat) (hws : ws.length = 4)
    (h : off2 + 4 ≤ off ∨ off + 4 ≤ off2) :
    leU32 (writeBytesAt data off ws) off2 = leU32 data off2 := by
  unfold leU32
  rw [getB_writeBytesAt_frame ws data off off2 (by omega),
    getB_writeBytesAt_frame ws data off (off2 + 1) (by omega),
    getB_writeBytesAt_frame ws data off (off2 + 2) (by omega),
    getB_writeBytesAt_frame ws data off (off2 + 3) (by omega)]

theorem leU32_write_readback (data : List Nat) (off v : Nat) (hv : v < 4294967296)
    (h : off + 4 ≤ data.length) :
    leU32 (writeBytesAt data off (bytesOfU32 v)) off = v := by
  have hl : (bytesOfU32 v).length = 4 := rfl
  have e0 : getB (writeBytesAt data off (bytesOfU32 v)) (off + 0) = v % 256 := by
    simpa [bytesOfU32] using
      getB_writeBytesAt_in (bytesOfU32 v) data off 0 (by omega) (by omega)
  have e1 : getB (writeBytesAt data off (bytesOfU32 v)) (off + 1) = v / 256 % 256 := by
    simpa [bytesOfU32] using
      getB_writeBytesAt_in (bytesOfU32 v) data off 1 (by omega) (by omega)
  have e2 : getB (writeBytesAt data off (bytesOfU32 v)) (off + 2) = v / 65536 % 256 := by
    simpa [bytesOfU32] using
      getB_writeBytesAt_in (bytesOfU32 v) data off 2 (by omega) (by omega)
  have e3 : getB (writeBytesAt data off (bytesOfU32 v)) (off + 3) = v / 16777216 % 256 := by
    simpa [bytesOfU32] using
      getB_writeBytesAt_in (bytesOfU32 v) data off 3 (by omega) (by omega)
  have e0' : getB (writeBytesAt data off (bytesOfU32 v)) off = v % 256 := by
    simpa using e0
  unfold leU32
  rw [e0', e1, e2, e3]
  omega

/-!
## Claim theorems
-/

/-- Claim C1, counterexample: `Fat32Image::offset_from_cluster` does not
clamp cluster numbers below 2; at cluster 1 the u64 subtraction wraps and
the result (118272 on the scenario geometry of the claim) differs from the
clamped formula value 118784. -/
theorem c1_counterexample :
    FatImg.offset_from_cluster mockBsImg 1 ≠
      (mockBsImg.reserved_sector + mockBsImg.number_of_fats * mockBsImg.sectors_per_fat +
        (max 1 2 - 2) * mockBsImg.sectors_per_cluster) * mockBsImg.bytes_per_sector := by
  decide

/-- Claim C1 as amended: `Fat32Volume::offset_from_cluster` equals
`(reserved_sectors + fat_count * sectors_per_fat + (max(c, 2) - 2) *
sectors_per_cluster) * bytes_per_sector` for every geometry and cluster,
clamping clusters below 2; `Fat32Image::offset_from_cluster` computes the
same formula only for clusters at least 2 (below 2 it underflows instead of
clamping); on the scenario geometry both give `offset_of(2) = 118784`. -/
theorem c1_offset_formula :
    (∀ (bs : FatVol.BootSector) (c : Nat),
      FatVol.offset_from_cluster bs c =
        (bs.reserved_sectors + bs.number_of_fats * bs.sectors_per_fat_32 +
          (max c 2 - 2) * bs.sectors_per_cluster) * bs.bytes_per_sector) ∧
    (∀ (bs : FatImg.BootSector) (c : Nat), bs.Wf → 2 ≤ c → c < 4294967296 →
      FatImg.offset_from_cluster bs c =
        (bs.reserved_sector + bs.number_of_fats * bs.sectors_per_fat +
          (c - 2) * bs.sectors_per_cluster) * bs.bytes_per_sector) ∧
    FatVol.offset_from_cluster mockBs 2 = 118784 ∧
    FatImg.offset_from_cluster mockBsImg 2 = 118784 := by
  refine ⟨fun bs c => ?_, fun bs c hwf h2 h32 => ?_, by decide, by decide⟩
  · unfold FatVol.offset_from_cluster
    by_cases h : c < 2
    · simp only [if_pos h]
      rw [Nat.max_eq_right (by omega : c ≤ 2)]
    · simp only [if_neg h]
      rw [Nat.max_eq_left (by omega : 2 ≤ c)]
  · obtain ⟨w1, w2, w3, w4, w5⟩ := hwf
    simp only [FatImg.offset_from_cluster]
    have hco : (c + 18446744073709551614) % 18446744073709551616 = c - 2 := by omega
    rw [hco]
    have h1 : (c - 2) * bs.sectors_per_cluster ≤ 4294967295 * 255 :=
      Nat.mul_le_mul (by omega) (by omega)
    have h2' : bs.number_of_fats * bs.sectors_per_fat ≤ 255 * 4294967295 :=
      Nat.mul_le_mul (by omega) (by omega)
    rw [Nat.mod_eq_of_lt (a := (c - 2) * bs.sectors_per_cluster) (by omega)]
    rw [Nat.mod_eq_of_lt (by omega :
      bs.reserved_sector + bs.number_of_fats * bs.sectors_per_fat +
        (c - 2) * bs.sectors_per_cluster < 18446744073709551616)]
    have h3 : (bs.reserved_sector + bs.number_of_fats * bs.sectors_per_fat +
        (c - 2) * bs.sectors_per_cluster) * bs.bytes_per_sector ≤
        (65535 + 255 * 4294967295 + 4294967295 * 255) * 65535 :=
      Nat.mul_le_mul (by omega) (by omega)
    rw [Nat.mod_eq_of_lt (by omega)]

/-- Witness for C1: the unclamped formula instance at cluster 3 on the
scenario geometry. -/
theorem c1_offset_formula_witness :
    FatImg.offset_from_cluster mockBsImg 3 =
      (mockBsImg.reserved_sector + mockBsImg.number_of_fats * mockBsImg.sectors_per_fat +
        (3 - 2) * mockBsImg.sectors_per_cluster) * mockBsImg.bytes_per_sector :=
  c1_offset_formula.2.1 mockBsImg 3 (by decide) (by decide) (by decide)

/-- Claim C6: on a byte range that covers the scanned FAT region,
`allocate_cluster` returns the first index from 3 on whose 4-byte
little-endian entry is zero, after writing the end-of-chain marker
0x0FFFFFFF into exactly that slot; when every entry from index 3 to the end
of the FAT is nonzero it returns none (out of space) and leaves the byte
range unchanged. -/
theorem c6_allocate_first_free (data : List Nat) (bs : FatVol.BootSector) :
    ((∀ i, i < FatVol.totalClusters bs → 3 ≤ i →
        leU32 data (FatVol.fatStart bs + i * 4) ≠ 0) →
      FatVol.allocate_cluster data bs = (none, data)) ∧
    (∀ j, 3 ≤ j → j < FatVol.totalClusters bs →
      leU32 data (FatVol.fatStart bs + j * 4) = 0 →
      (∀ i, i < j → 3 ≤ i → leU32 data (FatVol.fatStart bs + i * 4) ≠ 0) →
      FatVol.allocate_cluster data bs =
        (some j, writeBytesAt data (FatVol.fatStart bs + j * 4) (bytesOfU32 0x0FFFFFFF))) := by
  constructor
  · intro h
    unfold FatVol.allocate_cluster
    exact allocLoop_none _ data _ 3 (fun m h1 h2 => h m (by omega) h1)
  · intro j h3 hjt hz hmin
    unfold FatVol.allocate_cluster
    exact allocLoop_some _ data _ 3 j h3 (by omega) hz (fun m hm1 hm2 => hmin m hm2 hm1)

/-- Witness for C6: on the small volume with FAT entry 3 taken the allocator
claims entry 4 and marks it; on the volume whose FAT entries 3-7 are all
taken it reports out of space and the byte range is returned unchanged. -/
theorem c6_allocate_first_free_witness :
    FatVol.allocate_cluster fullFatData smallBs = (none, fullFatData) ∧
    FatVol.allocate_cluster halfFatData smallBs =
      (some 4, writeBytesAt halfFatData (FatVol.fatStart smallBs + 4 * 4) (bytesOfU32 0x0FFFFFFF)) :=
  ⟨(c6_allocate_first_free fullFatData smallBs).1 (by decide),
   (c6_allocate_first_free halfFatData smallBs).2 4 (by decide) (by decide) (by decide) (by decide)⟩

/-- Claim C10: a successful allocation of cluster `j` modifies only the four
bytes of FAT entry `j` within the first FAT (now the little-endian
end-of-chain marker); the corresponding entry of the second FAT copy is
untouched, so a mirrored FAT pair diverges at entry `j` after the
allocation; a failed allocation modifies nothing. -/
theorem c10_allocate_frame (data : List Nat) (bs : FatVol.BootSector) :
    (∀ j, FatVol.fatStart bs + FatVol.totalClusters bs * 4 ≤ data.length →
      3 ≤ j → j < FatVol.totalClusters bs →
      leU32 data (FatVol.fatStart bs + j * 4) = 0 →
      (∀ i, i < j → 3 ≤ i → leU32 data (FatVol.fatStart bs + i * 4) ≠ 0) →
      (FatVol.allocate_cluster data bs).1 = some j ∧
      (∀ p, p < FatVol.fatStart bs + j * 4 ∨ FatVol.fatStart bs + j * 4 + 4 ≤ p →
        getB (FatVol.allocate_cluster data bs).2 p = getB data p) ∧
      leU32 (FatVol.allocate_cluster data bs).2 (FatVol.fatStart bs + j * 4) = 0x0FFFFFFF ∧
      (leU32 data (FatVol.fat2Start bs + j * 4) = leU32 data (FatVol.fatStart bs + j * 4) →
        leU32 (FatVol.allocate_cluster data bs).2 (FatVol.fat2Start bs + j * 4) ≠
          leU32 (FatVol.allocate_cluster data bs).2 (FatVol.fatStart bs + j * 4))) ∧
    ((∀ i, i < FatVol.totalClusters bs → 3 ≤ i →
        leU32 data (FatVol.fatStart bs + i * 4) ≠ 0) →
      (FatVol.allocate_cluster data bs).2 = data) := by
  constructor
  · intro j hlen h3 hjt hz hmin
    have halloc := (c6_allocate_first_free data bs).2 j h3 hjt hz hmin
    have hwl : (bytesOfU32 0x0FFFFFFF).length = 4 := rfl
    have hsep : FatVol.fatStart bs + j * 4 + 4 ≤ FatVol.fat2Start bs + j * 4 := by
      have h1 : 4 * (bs.sectors_per_fat_32 * bs.bytes_per_sector % 4294967296 / 4) ≤
          bs.sectors_per_fat_32 * bs.bytes_per_sector % 4294967296 := Nat.mul_div_le _ 4
      have h2 : bs.sectors_per_fat_32 * bs.bytes_per_sector % 4294967296 ≤
          bs.sectors_per_fat_32 * bs.bytes_per_sector := Nat.mod_le _ _
      unfold FatVol.fat2Start
      unfold FatVol.totalClusters at hjt
      omega
    refine ⟨by rw [halloc], ?_, ?_, ?_⟩
    · intro p hp
      rw [halloc]
      exact getB_writeBytesAt_frame _ data _ p (by omega)
    · rw [halloc]
      exact leU32_write_readback data _ _ (by omega) (by omega)
    · intro hmirror
      rw [halloc]
      rw [leU32_writeBytesAt_frame data _ _ _ hwl (by omega),
        leU32_write_readback data _ _ (by omega) (by omega)]
      omega
  · intro h
    rw [(c6_allocate_first_free data bs).1 h]

/-- Witness for C10: the successful allocation on the half-taken FAT leaves
byte 99 (inside the directory region) and the second-FAT entry bytes alone
while entry 4 of the first FAT now reads 0x0FFFFFFF; the failed allocation
on the full FAT returns the byte range unchanged. -/
theorem c10_allocate_frame_witness :
    (FatVol.allocate_cluster halfFatData smallBs).1 = some 4 ∧
    getB (FatVol.allocate_cluster halfFatData smallBs).2 99 = getB halfFatData 99 ∧
    leU32 (FatVol.allocate_cluster halfFatData smallBs).2 (FatVol.fatStart smallBs + 4 * 4) =
      0x0FFFFFFF ∧
    (FatVol.allocate_cluster fullFatData smallBs).2 = fullFatData := by
  have hA := (c10_allocate_frame halfFatData smallBs).1 4 (by decide) (by decide) (by decide)
    (by decide) (by decide)
  exact ⟨hA.1, hA.2.1 99 (by decide), hA.2.2.1,
    (c10_allocate_frame fullFatData smallBs).2 (by decide)⟩

/-- Shift-or recombination of a 16-bit split value: because the low half is
below 2^16 the bitwise or of the shifted high half and the low half is their
sum. -/
theorem lor_shift16_eq_add (a b : Nat) (hb : b < 65536) : a <<< 16 ||| b = 65536 * a + b := by
  apply Nat.eq_of_testBit_eq
  intro j
  have hb' : b < 2 ^ 16 := hb
  rw [Nat.testBit_lor, Nat.testBit_mul_pow_two_add a hb' j, Nat.testBit_shiftLeft]
  by_cases h : j < 16
  · simp [h, Nat.not_le.mpr h]
  · have h16 : (16 : Nat) ≤ j := by omega
    have hbj : b < 2 ^ j := lt_of_lt_of_le hb' (Nat.pow_le_pow_right (by norm_num) h16)
    simp [h, h16, Nat.testBit_eq_false_of_lt hbj]

/-- Claim C7: classification of the directory scan.  The scan of
`list_directory` is a capped loop; a record whose first name byte is 0x00
ends it regardless of any later byte, a 0xE5 record is skipped without
ending it, a long-name (attribute 0x0F) or volume-label (bit 0x08) record is
skipped, and every other record is produced with its directory flag taken
from attribute bit 0x10. -/
theorem c7_scan_classification (data : List Nat) (bs : FatVol.BootSector)
    (cluster fuel cursor : Nat) :
    FatVol.list_directory data bs cluster =
      FatVol.listLoop data 128 (FatVol.offset_from_cluster bs cluster) ∧
    (cursor + 32 ≤ data.length → getB data cursor = 0 →
      FatVol.listLoop data (fuel + 1) cursor = []) ∧
    (cursor + 32 ≤ data.length → getB data cursor = 0xE5 →
      FatVol.listLoop data (fuel + 1) cursor = FatVol.listLoop data fuel (cursor + 32)) ∧
    (cursor + 32 ≤ data.length → getB data cursor ≠ 0 → getB data cursor ≠ 0xE5 →
      (getB data (cursor + 11) = 0x0F ∨ getB data (cursor + 11) &&& 0x08 ≠ 0) →
      FatVol.listLoop data (fuel + 1) cursor = FatVol.listLoop data fuel (cursor + 32)) ∧
    (cursor + 32 ≤ data.length → getB data cursor ≠ 0 → getB data cursor ≠ 0xE5 →
      getB data (cursor + 11) ≠ 0x0F → getB data (cursor + 11) &&& 0x08 = 0 →
      FatVol.listLoop data (fuel + 1) cursor =
        FatVol.entryAt data cursor :: FatVol.listLoop data fuel (cursor + 32) ∧
      ((FatVol.entryAt data cursor).is_dir = true ↔ getB data (cursor + 11) &&& 0x10 ≠ 0)) := by
  refine ⟨rfl, ?_, ?_, ?_, ?_⟩
  · intro hb h0
    simp only [FatVol.listLoop]
    rw [if_neg (by omega : ¬ cursor + 32 > data.length), if_pos h0]
  · intro hb h5
    simp only [FatVol.listLoop]
    rw [if_neg (by omega : ¬ cursor + 32 > data.length),
      if_neg (by omega : ¬ getB data cursor = 0), if_pos h5]
  · intro hb h0 h5 hskip
    simp only [FatVol.listLoop]
    rw [if_neg (by omega : ¬ cursor + 32 > data.length), if_neg h0, if_neg h5,
      if_neg (fun hc => by rcases hskip with h | h; exact hc.1 h; exact h hc.2)]
  · intro hb h0 h5 h0F h08
    constructor
    · simp only [FatVol.listLoop]
      rw [if_neg (by omega : ¬ cursor + 32 > data.length), if_neg h0, if_neg h5,
        if_pos ⟨h0F, h08⟩]
    · simp [FatVol.entryAt]

/-- Witness for C7: each branch of the classification on a concrete record:
the garbage-followed terminator yields an empty listing, the deleted and
long-name and volume-label records step to the next slot, and the live file
record is produced with its directory flag from bit 0x10. -/
theorem c7_scan_classification_witness :
    FatVol.listLoop dataTerm 6 0 = [] ∧
    FatVol.listLoop dataDel 2 0 = FatVol.listLoop dataDel 1 32 ∧
    FatVol.listLoop dataLfn 2 0 = FatVol.listLoop dataLfn 1 32 ∧
    FatVol.listLoop dataVolLabel 2 0 = FatVol.listLoop dataVolLabel 1 32 ∧
    FatVol.listLoop dataFile 2 0 = FatVol.entryAt dataFile 0 :: FatVol.listLoop dataFile 1 32 ∧
    ((FatVol.entryAt dataFile 0).is_dir = true ↔ getB dataFile 11 &&& 0x10 ≠ 0) :=
  ⟨(c7_scan_classification dataTerm smallBs 2 5 0).2.1 (by decide) (by decide),
   (c7_scan_classification dataDel smallBs 2 1 0).2.2.1 (by decide) (by decide),
   (c7_scan_classification dataLfn smallBs 2 1 0).2.2.2.1 (by decide) (by decide) (by decide)
     (Or.inl (by decide)),
   (c7_scan_classification dataVolLabel smallBs 2 1 0).2.2.2.1 (by decide) (by decide) (by decide)
     (Or.inr (by decide)),
   ((c7_scan_classification dataFile smallBs 2 1 0).2.2.2.2 (by decide) (by decide) (by decide)
     (by decide) (by decide)).1,
   ((c7_scan_classification dataFile smallBs 2 1 0).2.2.2.2 (by decide) (by decide) (by decide)
     (by decide) (by decide)).2⟩

/-- Claim C4, counterexample: on `dataC4` the file entry `B.TXT` matches the
requested name and its data range exceeds the backing range, yet `read_file`
reports the NotFound error (the claim requires an OutOfRange error and
explicitly not NotFound; the code has no out-of-range error at all). -/
theorem c4_counterexample :
    eqIgnoreAsciiCase (FatVol.fullNameAt dataC4 96) bTxtB ∧
    dataC4.length < FatVol.offset_from_cluster smallBs (FatVol.recClusterAt dataC4 96) +
      leU32 dataC4 (96 + 28) ∧
    FatVol.read_file dataC4 smallBs 2 bTxtB = .error .notFound := by
  refine ⟨by decide, by decide, ?_⟩
  rfl

/-- Claim C4 as amended: `read_file` locates the entry by case-insensitive
full-name equality; a matched entry with the directory bit 0x10 fails with
the IsADirectory error; otherwise, when the entry data range fits the
backing range, exactly `size` bytes starting at the offset of the entry
start cluster are returned; when the range does not fit, the match is
silently skipped and scanning continues (ending in NotFound when nothing
else matches) - no OutOfRange error exists. -/
theorem c4_read_file_behavior (data : List Nat) (bs : FatVol.BootSector)
    (filename : List Nat) (cur fuel cursor : Nat) :
    FatVol.read_file data bs cur filename =
      FatVol.rfLoop data bs filename 128 (FatVol.offset_from_cluster bs cur) ∧
    (cursor + 32 ≤ data.length → getB data cursor ≠ 0 →
      eqIgnoreAsciiCase (FatVol.fullNameAt data cursor) filename →
      ((getB data (cursor + 11) &&& 0x10 ≠ 0 →
        FatVol.rfLoop data bs filename (fuel + 1) cursor = .error .isADirectory) ∧
       (getB data (cursor + 11) &&& 0x10 = 0 →
        (FatVol.offset_from_cluster bs (FatVol.recClusterAt data cursor) +
            leU32 data (cursor + 28) ≤ data.length →
          FatVol.rfLoop data bs filename (fuel + 1) cursor =
            .ok (sliceB data
              (FatVol.offset_from_cluster bs (FatVol.recClusterAt data cursor))
              (leU32 data (cursor + 28))) ∧
          (sliceB data (FatVol.offset_from_cluster bs (FatVol.recClusterAt data cursor))
              (leU32 data (cursor + 28))).length = leU32 data (cursor + 28)) ∧
        (data.length < FatVol.offset_from_cluster bs (FatVol.recClusterAt data cursor) +
            leU32 data (cursor + 28) →
          FatVol.rfLoop data bs filename (fuel + 1) cursor =
            FatVol.rfLoop data bs filename fuel (cursor + 32))))) ∧
    (cursor + 32 ≤ data.length → getB data cursor ≠ 0 →
      ¬ eqIgnoreAsciiCase (FatVol.fullNameAt data cursor) filename →
      FatVol.rfLoop data bs filename (fuel + 1) cursor =
        FatVol.rfLoop data bs filename fuel (cursor + 32)) := by
  refine ⟨rfl, ?_, ?_⟩
  · intro hb h0 hm
    refine ⟨?_, fun hnd => ⟨?_, ?_⟩⟩
    · intro hdir
      simp only [FatVol.rfLoop]
      rw [if_neg (by omega : ¬ cursor + 32 > data.length), if_neg h0, if_pos hm, if_pos hdir]
    · intro hin
      constructor
      · simp only [FatVol.rfLoop]
        rw [if_neg (by omega : ¬ cursor + 32 > data.length), if_neg h0, if_pos hm,
          if_neg (by omega : ¬ getB data (cursor + 11) &&& 0x10 ≠ 0), if_pos hin]
      · exact slice_length data _ _ hin
    · intro hout
      simp only [FatVol.rfLoop]
      rw [if_neg (by omega : ¬ cursor + 32 > data.length), if_neg h0, if_pos hm,
        if_neg (by omega : ¬ getB data (cursor + 11) &&& 0x10 ≠ 0),
        if_neg (by omega :
          ¬ FatVol.offset_from_cluster bs (FatVol.recClusterAt data cursor) +
            leU32 data (cursor + 28) ≤ data.length)]
  · intro hb h0 hm
    simp only [FatVol.rfLoop]
    rw [if_neg (by omega : ¬ cursor + 32 > data.length), if_neg h0, if_neg hm]

/-- Witness for C4: the directory match fails with IsADirectory, the
in-range match returns the two content bytes, the out-of-range match steps
on to the next record, and a non-matching record steps on as well. -/
theorem c4_read_file_behavior_witness :
    FatVol.rfLoop dataCd smallBs subB 3 96 = .error .isADirectory ∧
    FatVol.rfLoop dataC4b smallBs bTxtB 3 96 = .ok hiB ∧
    FatVol.rfLoop dataC4 smallBs bTxtB 3 96 = FatVol.rfLoop dataC4 smallBs bTxtB 2 128 ∧
    FatVol.rfLoop dataC4 smallBs aTxtB 3 96 = FatVol.rfLoop dataC4 smallBs aTxtB 2 128 := by
  have h1 := ((c4_read_file_behavior dataCd smallBs subB 2 2 96).2.1 (by decide) (by decide)
    (by decide)).1 (by decide)
  have h2 := (((c4_read_file_behavior dataC4b smallBs bTxtB 2 2 96).2.1 (by decide) (by decide)
    (by decide)).2 (by decide)).1 (by decide)
  have h3 := (((c4_read_file_behavior dataC4 smallBs bTxtB 2 2 96).2.1 (by decide) (by decide)
    (by decide)).2 (by decide)).2 (by decide)
  have h4 := (c4_read_file_behavior dataC4 smallBs aTxtB 2 2 96).2.2 (by decide) (by decide)
    (by decide)
  refine ⟨h1, ?_, h3, h4⟩
  rw [h2.1]
  rfl

/-- Claim C5: evaluation at the failing input.  On the small volume the
cluster capacity is 32 bytes; creating `b.txt` with 33 bytes of content
succeeds (no FileTooLarge error exists in the code) after allocating
cluster 3, and the 33rd content byte lands at offset 160 - the first byte
of cluster 4 - overwriting data beyond the allocated cluster. -/
theorem c5_no_size_check :
    smallBs.sectors_per_cluster * smallBs.bytes_per_sector = 32 ∧
    bigContent.length = 33 ∧
    (FatVol.allocate_cluster smallData smallBs).1 = some 3 ∧
    FatVol.create_file smallData smallBs 2 bTxtB bigContent = .ok c5Data ∧
    FatVol.offset_from_cluster smallBs 4 = 160 ∧
    getB c5Data 160 = 7 ∧
    getB smallData 160 = 0 := by
  refine ⟨by decide, by decide, by decide, ?_, by decide, by decide, by decide⟩
  rfl

/-- Claim C8, counterexample: on an image whose boot sector names root
cluster 5, a directory entry with combined start cluster 0 resolves through
`Fat32Image::find_sub_directory` to the constant cluster 2, not to the
root cluster read from the boot sector. -/
theorem c8_counterexample :
    FatImg.imgNew dataC8 = some bsC8 ∧
    bsC8.root_dir_cluster = 5 ∧
    FatImg.recClusterAt dataC8 160 = 0 ∧
    FatImg.find_sub_directory dataC8 bsC8 5 subB = .ok (some 2) ∧
    (2 : Nat) ≠ bsC8.root_dir_cluster := by
  refine ⟨by decide, by decide, by decide, ?_, by decide⟩
  rfl

/-- Claim C8 as amended: when a directory lookup matches a
directory-attribute entry whose combined start cluster is 0,
`Fat32Volume::change_directory` substitutes the root cluster read from the
boot sector, while `Fat32Image::find_sub_directory` substitutes the
constant cluster 2 regardless of the boot-sector root (correct only for
geometries whose root cluster is 2). -/
theorem c8_cluster_zero_alias (data : List Nat) (bs : FatVol.BootSector)
    (dirname : List Nat) (fuel cursor : Nat) :
    (cursor + 32 ≤ data.length → getB data cursor ≠ 0 →
      (eqIgnoreAsciiCase (FatVol.namePartAt data cursor) dirname ∨
        eqIgnoreAsciiCase (FatVol.fullNameAt data cursor) dirname) →
      getB data (cursor + 11) &&& 0x10 ≠ 0 →
      FatVol.recClusterAt data cursor = 0 →
      FatVol.cdLoop data bs dirname (fuel + 1) cursor = .ok bs.root_dir_cluster) ∧
    (cursor + 32 ≤ data.length → getB data cursor ≠ 0 → getB data cursor ≠ 0xE5 →
      getB data (cursor + 11) ≠ 0x0F →
      FatImg.format_name (sliceB data cursor 11) = lowerB dirname →
      getB data (cursor + 11) &&& 0x10 ≠ 0 →
      FatImg.recClusterAt data cursor = 0 →
      FatImg.findLoop data (lowerB dirname) (fuel + 1) cursor = .ok (some 2)) := by
  constructor
  · intro hb h0 hm hdir hcl
    simp only [FatVol.cdLoop]
    rw [if_neg (by omega : ¬ cursor + 32 > data.length), if_neg h0, if_pos hm, if_pos hdir,
      hcl, if_pos rfl]
  · intro hb h0 h5 h0F hm hdir hcl
    simp only [FatImg.findLoop]
    rw [if_neg (by omega : ¬ cursor + 32 > data.length), if_neg h0, if_neg h5, if_neg h0F,
      if_pos hm, if_pos hdir, hcl, if_pos rfl]

/-- Witness for C8: on `dataCd` (boot-sector root 7) the cluster-0 directory
entry sends `change_directory` to cluster 7; on `dataC8` (boot-sector root
5) the same shape of entry sends `find_sub_directory` to the constant 2. -/
theorem c8_cluster_zero_alias_witness :
    FatVol.cdLoop dataCd (FatVol.volumeNew dataCd) subB 3 96 =
      .ok (FatVol.volumeNew dataCd).root_dir_cluster ∧
    (FatVol.volumeNew dataCd).root_dir_cluster = 7 ∧
    FatImg.findLoop dataC8 (lowerB subB) 4 160 = .ok (some 2) :=
  ⟨(c8_cluster_zero_alias dataCd (FatVol.volumeNew dataCd) subB 2 96).1 (by decide) (by decide)
     (Or.inl (by decide)) (by decide) (by decide),
   by decide,
   (c8_cluster_zero_alias dataC8 (FatVol.volumeNew dataCd) subB 3 160).2 (by decide) (by decide)
     (by decide) (by decide) (by decide) (by decide) (by decide)⟩

/-- Claim C9, counterexample: `Fat32Volume::new` accepts an image whose
signature bytes 510-511 are not 0x55 0xAA, parsing the full geometry out of
it with no error, while `BiosParameterBlock::new` rejects the same image
with the format error. -/
theorem c9_counterexample :
    getB dataBadSig 510 ≠ 0x55 ∧
    Bpb.bpbNew dataBadSig = .error .formatError ∧
    FatVol.volumeNew dataBadSig = mockBs := by
  refine ⟨by decide, ?_, by decide⟩
  rfl

/-- Claim C9 as amended: `BiosParameterBlock::new` (given a successful
512-byte read) fails with the format error exactly when the signature bytes
at offsets 510-511 are not 0x55 0xAA, and otherwise parses the geometry
fields little-endian at the fixed offsets with no other validation;
`Fat32Volume::new` performs no signature check at all - its result depends
only on the first 48 bytes of the image. -/
theorem c9_boot_signature (data e : List Nat) :
    (512 ≤ data.length →
      (Bpb.bpbNew data = .error .formatError ↔
        ¬ (getB data 510 = 0x55 ∧ getB data 511 = 0xAA))) ∧
    (512 ≤ data.length → getB data 510 = 0x55 → getB data 511 = 0xAA →
      ∃ b, Bpb.bpbNew data = .ok b ∧ b.bytes_per_sector = leU16 data 11 ∧
        b.sectors_per_cluster = getB data 13 ∧ b.reserved_sectors = leU16 data 14 ∧
        b.num_fats = getB data 16 ∧ b.fat_size_32 = leU32 data 36 ∧
        b.root_cluster = leU32 data 44) ∧
    ((∀ i, i < 48 → getB data i = getB e i) →
      FatVol.volumeNew data = FatVol.volumeNew e) := by
  refine ⟨?_, ?_, ?_⟩
  · intro hlen
    unfold Bpb.bpbNew
    rw [if_pos hlen]
    by_cases hsig : getB data 510 = 0x55 ∧ getB data 511 = 0xAA
    · rw [if_neg (fun hc => by rcases hc with h | h; exact h hsig.1; exact h hsig.2)]
      constructor
      · intro h; exact absurd h (by simp)
      · intro h; exact absurd hsig h
    · rw [if_pos (by tauto)]
      simp [hsig]
  · intro hlen h510 h511
    unfold Bpb.bpbNew
    rw [if_pos hlen, if_neg (fun hc => by rcases hc with h | h; exact h h510; exact h h511)]
    exact ⟨_, rfl, rfl, rfl, rfl, rfl, rfl, rfl⟩
  · intro h
    have h16 : ∀ i, i + 1 < 48 → leU16 data i = leU16 e i := by
      intro i hi
      unfold leU16
      rw [h i (by omega), h (i + 1) (by omega)]
    have h32 : ∀ i, i + 3 < 48 → leU32 data i = leU32 e i := by
      intro i hi
      unfold leU32
      rw [h i (by omega), h (i + 1) (by omega), h (i + 2) (by omega), h (i + 3) (by omega)]
    unfold FatVol.volumeNew
    rw [h16 11 (by omega), h 13 (by omega), h16 14 (by omega), h 16 (by omega),
      h16 17 (by omega), h16 19 (by omega), h 21 (by omega), h16 22 (by omega),
      h16 24 (by omega), h16 26 (by omega), h32 28 (by omega), h32 32 (by omega),
      h32 36 (by omega), h16 40 (by omega), h16 42 (by omega), h32 44 (by omega)]

/-- Witness for C9: the bad-signature image is rejected by the boot-sector
parser, the good-signature image is accepted with the parsed fields, and
`Fat32Volume::new` gives the same geometry for both since they agree on the
first 48 bytes. -/
theorem c9_boot_signature_witness :
    Bpb.bpbNew dataBadSig = .error .formatError ∧
    (∃ b, Bpb.bpbNew dataGoodSig = .ok b ∧ b.bytes_per_sector = leU16 dataGoodSig 11 ∧
      b.sectors_per_cluster = getB dataGoodSig 13 ∧
      b.reserved_sectors = leU16 dataGoodSig 14 ∧
      b.num_fats = getB dataGoodSig 16 ∧ b.fat_size_32 = leU32 dataGoodSig 36 ∧
      b.root_cluster = leU32 dataGoodSig 44) ∧
    FatVol.volumeNew dataBadSig = FatVol.volumeNew dataGoodSig :=
  ⟨((c9_boot_signature dataBadSig dataGoodSig).1 (by decide)).mpr (by decide),
   (c9_boot_signature dataGoodSig dataBadSig).2.1 (by decide) (by decide) (by decide),
   (c9_boot_signature dataBadSig dataGoodSig).2.2 (by decide)⟩

/-- The reference walk on `segments ++ [leaf]` factors through the
parent-directory walk of the source, returning the final cluster together
with the leaf. -/
theorem resolveGo_append (data : List Nat) (bsi : FatImg.BootSector) (leaf : List Nat)
    (ds : List (List Nat)) : ∀ (c : Nat),
    FatImg.resolveGo data bsi c (ds ++ [leaf]) =
      match FatImg.walkParents data bsi c ds with
      | .error e => .error e
      | .ok c2 => .ok (c2, some leaf) := by
  induction ds with
  | nil => intro c; rfl
  | cons d ds ih =>
    intro c
    rcases hf : FatImg.find_sub_directory data bsi c d with u | o
    · rcases ds with _ | ⟨e, es⟩ <;> simp [FatImg.resolveGo, FatImg.walkParents, hf]
    · rcases o with _ | c2
      · rcases ds with _ | ⟨e, es⟩ <;> simp [FatImg.resolveGo, FatImg.walkParents, hf]
      · rcases ds with _ | ⟨e, es⟩
        · simp [FatImg.resolveGo, FatImg.walkParents, hf]
        · simp only [List.cons_append] at ih ⊢
          simp only [FatImg.resolveGo, FatImg.walkParents, hf]
          exact ih c2

/-- The source shape of `resolve_path` (split last segment, walk the rest)
equals the reference walk on the whole segment list. -/
theorem resolve_parts_eq (data : List Nat) (bsi : FatImg.BootSector) (c0 : Nat)
    (parts : List (List Nat)) :
    (match parts.getLast? with
     | none => (.ok (c0, none) : Except FatImg.ResErr (Nat × Option (List Nat)))
     | some leaf =>
       match FatImg.walkParents data bsi c0 parts.dropLast with
       | .error e => .error e
       | .ok c => .ok (c, some leaf)) =
      FatImg.resolveGo data bsi c0 parts := by
  rcases hp : parts.getLast? with _ | leaf
  · rw [List.getLast?_eq_none_iff.mp hp]
    rfl
  · have hne : parts ≠ [] := by
      intro hc
      rw [hc] at hp
      exact absurd hp (by simp)
    have hleaf : parts.getLast hne = leaf := by
      have := List.getLast?_eq_getLast parts hne
      rw [hp] at this
      exact (Option.some.injEq _ _).mp this.symm
    conv_rhs => rw [← List.dropLast_append_getLast hne, hleaf]
    rw [resolveGo_append]

/-- Claim C2: `resolve_path` equals the specification-worded resolution
(leading slash switches to the boot-sector root, slash-splitting discards
empty segments, no segment returns the directory itself, otherwise the last
segment is the leaf and each preceding segment is resolved case-
insensitively through `find_sub_directory`, aborting with NotFound naming
the first segment that fails); and a record whose name matches the segment
resolves to its (alias-adjusted) cluster when it carries the directory
attribute but makes the lookup report no match when it does not. -/
theorem c2_resolve_path (data : List Nat) (bsi : FatImg.BootSector)
    (start : Nat) (path dirname : List Nat) (fuel cursor : Nat) :
    FatImg.resolve_path data bsi start path = FatImg.resolveRef data bsi start path ∧
    FatImg.find_sub_directory data bsi start dirname =
      FatImg.findLoop data (lowerB dirname) 100 (FatImg.offset_from_cluster bsi start) ∧
    (cursor + 32 ≤ data.length → getB data cursor ≠ 0 → getB data cursor ≠ 0xE5 →
      getB data (cursor + 11) ≠ 0x0F →
      FatImg.format_name (sliceB data cursor 11) = lowerB dirname →
      ((getB data (cursor + 11) &&& 0x10 ≠ 0 →
        FatImg.findLoop data (lowerB dirname) (fuel + 1) cursor =
          .ok (some (if FatImg.recClusterAt data cursor = 0 then 2
            else FatImg.recClusterAt data cursor))) ∧
       (getB data (cursor + 11) &&& 0x10 = 0 →
        FatImg.findLoop data (lowerB dirname) (fuel + 1) cursor = .ok none))) ∧
    (cursor + 32 ≤ data.length → getB data cursor ≠ 0 → getB data cursor ≠ 0xE5 →
      getB data (cursor + 11) ≠ 0x0F →
      FatImg.format_name (sliceB data cursor 11) ≠ lowerB dirname →
      FatImg.findLoop data (lowerB dirname) (fuel + 1) cursor =
        FatImg.findLoop data (lowerB dirname) fuel (cursor + 32)) := by
  refine ⟨?_, rfl, ?_, ?_⟩
  · unfold FatImg.resolve_path FatImg.resolveRef
    exact resolve_parts_eq data bsi _ _
  · intro hb h0 h5 h0F hm
    constructor
    · intro hdir
      simp only [FatImg.findLoop]
      rw [if_neg (by omega : ¬ cursor + 32 > data.length), if_neg h0, if_neg h5, if_neg h0F,
        if_pos hm, if_pos hdir]
    · intro hnd
      simp only [FatImg.findLoop]
      rw [if_neg (by omega : ¬ cursor + 32 > data.length), if_neg h0, if_neg h5, if_neg h0F,
        if_pos hm, if_neg (by omega : ¬ getB data (cursor + 11) &&& 0x10 ≠ 0)]
  · intro hb h0 h5 h0F hm
    simp only [FatImg.findLoop]
    rw [if_neg (by omega : ¬ cursor + 32 > data.length), if_neg h0, if_neg h5, if_neg h0F,
      if_neg hm]

/-- Witness for C2: the equivalence evaluated on the concrete image (path
/sub/x resolves to cluster 2 with leaf x under both formulations), the
directory match resolving to the alias-adjusted cluster, the non-directory
match reporting no match, and the non-matching record stepping on. -/
theorem c2_resolve_path_witness :
    FatImg.resolve_path dataC8 bsC8 9 pathSubXB = FatImg.resolveRef dataC8 bsC8 9 pathSubXB ∧
    FatImg.resolve_path dataC8 bsC8 9 pathSubXB = .ok (2, some [120]) ∧
    FatImg.findLoop dataC8 (lowerB subB) 4 160 =
      .ok (some (if FatImg.recClusterAt dataC8 160 = 0 then 2
        else FatImg.recClusterAt dataC8 160)) ∧
    FatImg.findLoop dataC4 (lowerB bTxtB) 4 96 = .ok none ∧
    FatImg.findLoop dataC4 (lowerB subB) 4 96 = FatImg.findLoop dataC4 (lowerB subB) 3 128 := by
  refine ⟨(c2_resolve_path dataC8 bsC8 9 pathSubXB subB 3 160).1, by rfl,
    ((c2_resolve_path dataC8 bsC8 9 pathSubXB subB 3 160).2.2.1 (by decide) (by decide)
      (by decide) (by decide) (by decide)).1 (by decide),
    ((c2_resolve_path dataC4 bsC8 9 pathSubXB bTxtB 3 96).2.2.1 (by decide) (by decide)
      (by decide) (by decide) (by decide)).2 (by decide),
    (c2_resolve_path dataC4 bsC8 9 pathSubXB subB 3 96).2.2.2 (by decide) (by decide)
      (by decide) (by decide) (by decide)⟩

/-!
## Lemmas for the write / scan round trip (claim C3)
-/

theorem splitB_ne_nil (sep : Nat) (l : List Nat) : splitB sep l ≠ [] := by
  cases l with
  | nil => simp [splitB]
  | cons b bs =>
    simp only [splitB]
    rcases h : splitB sep bs with _ | ⟨c, r⟩
    · simp
    · split_ifs <;> simp

theorem splitB_no_sep (sep : Nat) (l : List Nat) (h : ∀ b ∈ l, b ≠ sep) :
    splitB sep l = [l] := by
  induction l with
  | nil => rfl
  | cons b bs ih =>
    have hb : b ≠ sep := h b (by simp)
    simp only [splitB, ih (fun x hx => h x (by simp [hx])), if_neg hb]

theorem splitB_sep_append (sep : Nat) (l r : List Nat) (h : ∀ b ∈ l, b ≠ sep) :
    splitB sep (l ++ sep :: r) = l :: splitB sep r := by
  induction l with
  | nil =>
    simp only [List.nil_append, splitB]
    rcases hs : splitB sep r with _ | ⟨cur, rest⟩
    · exact absurd hs (splitB_ne_nil sep r)
    · simp
  | cons b bs ih =>
    have hb : b ≠ sep := h b (by simp)
    have ih2 := ih (fun x hx => h x (by simp [hx]))
    simp only [List.cons_append, splitB, List.append_eq, ih2, if_neg hb]

theorem dropWhile_eq_self_of (p : Nat → Bool) (l : List Nat) (h : ∀ b ∈ l, p b = false) :
    l.dropWhile p = l := by
  cases l with
  | nil => rfl
  | cons a as => simp [List.dropWhile_cons, h a (by simp)]

theorem dropWhile_replicate_ws (m : Nat) (xs : List Nat) :
    (List.replicate m 32 ++ xs).dropWhile wsB = xs.dropWhile wsB := by
  induction m with
  | zero => rfl
  | succ m ih => simp [List.replicate_succ, List.dropWhile_cons, wsB, ih]

/-- Trimming a space-padded byte string with whitespace-free nonempty core
returns the core. -/
theorem trimB_pad (l : List Nat) (m : Nat) (hl : l ≠ []) (h : ∀ b ∈ l, wsB b = false) :
    trimB (l ++ List.replicate m 32) = l := by
  unfold trimB trimLeftB trimRightB
  have h1 : (l ++ List.replicate m 32).dropWhile wsB = l ++ List.replicate m 32 := by
    rcases l with _ | ⟨a, as⟩
    · exact absurd rfl hl
    · simp [List.dropWhile_cons, h a (by simp)]
  rw [h1, List.reverse_append, List.reverse_replicate, dropWhile_replicate_ws,
    dropWhile_eq_self_of wsB l.reverse (fun b hb => h b (List.mem_reverse.mp hb)),
    List.reverse_reverse]

theorem wsB_goodChar {b : Nat} (h : goodChar b) : wsB b = false := by
  obtain ⟨h1, h2, h3⟩ := h
  simp only [wsB, Bool.or_eq_false_iff, beq_eq_false_iff_ne]
  omega

theorem asciiUpper_goodChar {b : Nat} (h : goodChar b) :
    33 ≤ asciiUpper b ∧ asciiUpper b ≤ 126 ∧ asciiUpper b ≠ 46 ∧
      wsB (asciiUpper b) = false ∧ asciiUpper b ≠ 0 ∧ asciiUpper b ≠ 0xE5 := by
  obtain ⟨h1, h2, h3⟩ := h
  unfold asciiUpper
  split_ifs with hc
  · refine ⟨by omega, by omega, by omega, ?_, by omega, by omega⟩
    simp only [wsB, Bool.or_eq_false_iff, beq_eq_false_iff_ne]
    omega
  · refine ⟨h1, h2, h3, ?_, by omega, by omega⟩
    simp only [wsB, Bool.or_eq_false_iff, beq_eq_false_iff_ne]
    omega

theorem asciiLower_upper (b : Nat) : asciiLower (asciiUpper b) = asciiLower b := by
  unfold asciiUpper asciiLower
  split_ifs <;> omega

theorem lowerB_map_upper (l : List Nat) : lowerB (l.map asciiUpper) = lowerB l := by
  induction l with
  | nil => rfl
  | cons b bs ih => simp only [lowerB, List.map_cons, asciiLower_upper] at ih ⊢; rw [ih]

theorem padTo_length (n : Nat) (l : List Nat) (h : l.length ≤ n) :
    (FatVol.padTo n l).length = n := by
  simp [FatVol.padTo]
  omega

theorem nameField_length (nm ex : List Nat) : (FatVol.nameField nm ex).length = 11 := by
  unfold FatVol.nameField
  rw [List.length_append,
    padTo_length 8 _ (by simp only [List.length_map, List.length_take]; omega),
    padTo_length 3 _ (by simp only [List.length_map, List.length_take]; omega)]

theorem leU16_writeBytesAt_frame (data ws : List Nat) (off off2 : Nat)
    (h : off2 + 2 ≤ off ∨ off + ws.length ≤ off2) :
    leU16 (writeBytesAt data off ws) off2 = leU16 data off2 := by
  unfold leU16
  rw [getB_writeBytesAt_frame ws data off off2 (by omega),
    getB_writeBytesAt_frame ws data off (off2 + 1) (by omega)]

theorem leU16_write_readback (data : List Nat) (off v : Nat) (hv : v < 65536)
    (h : off + 2 ≤ data.length) :
    leU16 (writeBytesAt data off (bytesOfU16 v)) off = v := by
  have e0 : getB (writeBytesAt data off (bytesOfU16 v)) (off + 0) = v % 256 := by
    simpa [bytesOfU16] using
      getB_writeBytesAt_in (bytesOfU16 v) data off 0 (by simp [bytesOfU16]) (by simp [bytesOfU16]; omega)
  have e1 : getB (writeBytesAt data off (bytesOfU16 v)) (off + 1) = v / 256 % 256 := by
    simpa [bytesOfU16] using
      getB_writeBytesAt_in (bytesOfU16 v) data off 1 (by simp [bytesOfU16]) (by simp [bytesOfU16]; omega)
  have e0' : getB (writeBytesAt data off (bytesOfU16 v)) off = v % 256 := by simpa using e0
  unfold leU16
  rw [e0', e1]
  omega

theorem installRecord_length (data f : List Nat) (c cl sz : Nat) :
    (FatVol.installRecord data c f cl sz).length = data.length := by
  simp [FatVol.installRecord]

/-- Reads below `c + 20` see through the cluster and size writes of
`installRecord`. -/
theorem installRecord_getB_low (data f : List Nat) (c cl sz p : Nat) (hp : p < c + 20) :
    getB (FatVol.installRecord data c f cl sz) p =
      getB ((writeBytesAt data c (FatVol.nameField ((splitB 46 f).getD 0 FatVol.unknownB)
        ((splitB 46 f).getD 1 FatVol.spaces3))).set (c + 11) 0x20) p := by
  simp only [FatVol.installRecord]
  rw [getB_writeBytesAt_frame _ _ _ _ (Or.inl (by omega)),
    getB_writeBytesAt_frame _ _ _ _ (Or.inl (by omega)),
    getB_writeBytesAt_frame _ _ _ _ (Or.inl (by omega))]

theorem installRecord_name_getB (data f : List Nat) (c cl sz i : Nat)
    (hc : c + 32 ≤ data.length) (hi : i < 11) :
    getB (FatVol.installRecord data c f cl sz) (c + i) =
      (FatVol.nameField ((splitB 46 f).getD 0 FatVol.unknownB)
        ((splitB 46 f).getD 1 FatVol.spaces3)).getD i 0 := by
  rw [installRecord_getB_low data f c cl sz _ (by omega),
    getB_set_ne _ _ _ _ (by omega),
    getB_writeBytesAt_in _ data c i (by rw [nameField_length]; exact hi)
      (by rw [nameField_length]; omega)]

theorem installRecord_attr (data f : List Nat) (c cl sz : Nat) (hc : c + 32 ≤ data.length) :
    getB (FatVol.installRecord data c f cl sz) (c + 11) = 0x20 := by
  rw [installRecord_getB_low data f c cl sz _ (by omega)]
  exact getB_set_self _ _ _ (by simp; omega)

theorem installRecord_frame (data f : List Nat) (c cl sz p : Nat)
    (hp : p < c ∨ c + 32 ≤ p) :
    getB (FatVol.installRecord data c f cl sz) p = getB data p := by
  simp only [FatVol.installRecord]
  rw [getB_writeBytesAt_frame _ _ _ _
      (by rcases hp with h | h
          · exact Or.inl (by omega)
          · exact Or.inr (by simp [bytesOfU32]; omega)),
    getB_writeBytesAt_frame _ _ _ _
      (by rcases hp with h | h
          · exact Or.inl (by omega)
          · exact Or.inr (by simp [bytesOfU16]; omega)),
    getB_writeBytesAt_frame _ _ _ _
      (by rcases hp with h | h
          · exact Or.inl (by omega)
          · exact Or.inr (by simp [bytesOfU16]; omega)),
    getB_set_ne _ _ _ _ (by omega),
    getB_writeBytesAt_frame _ _ _ _
      (by rcases hp with h | h
          · exact Or.inl (by omega)
          · exact Or.inr (by rw [nameField_length]; omega))]

theorem installRecord_recCluster (data f : List Nat) (c cl sz : Nat)
    (hc : c + 32 ≤ data.length) (hcl : cl < 4294967296) :
    FatVol.recClusterAt (FatVol.installRecord data c f cl sz) c = cl := by
  unfold FatVol.recClusterAt
  have h20 : leU16 (FatVol.installRecord data c f cl sz) (c + 20) = cl >>> 16 % 65536 := by
    simp only [FatVol.installRecord]
    rw [leU16_writeBytesAt_frame _ _ _ _ (Or.inl (by omega)),
      leU16_writeBytesAt_frame _ _ _ _ (Or.inl (by omega)),
      leU16_write_readback _ _ _ (Nat.mod_lt _ (by norm_num)) (by simp; omega)]
  have h26 : leU16 (FatVol.installRecord data c f cl sz) (c + 26) = cl % 65536 := by
    simp only [FatVol.installRecord]
    rw [leU16_writeBytesAt_frame _ _ _ _ (Or.inl (by omega)),
      leU16_write_readback _ _ _ (Nat.mod_lt _ (by norm_num)) (by simp; omega)]
  rw [h20, h26, lor_shift16_eq_add _ _ (Nat.mod_lt _ (by norm_num)),
    Nat.shiftRight_eq_div_pow]
  omega

theorem installRecord_size (data f : List Nat) (c cl sz : Nat)
    (hc : c + 32 ≤ data.length) (hsz : sz < 4294967296) :
    leU32 (FatVol.installRecord data c f cl sz) (c + 28) = sz := by
  simp only [FatVol.installRecord]
  exact leU32_write_readback _ _ _ hsz (by simp; omega)

theorem installRecord_name_slice (data f : List Nat) (c cl sz : Nat)
    (hc : c + 32 ≤ data.length) :
    sliceB (FatVol.installRecord data c f cl sz) c 8 =
      FatVol.padTo 8 ((((splitB 46 f).getD 0 FatVol.unknownB).take 8).map asciiUpper) := by
  have hlen : (FatVol.installRecord data c f cl sz).length = data.length :=
    installRecord_length data f c cl sz
  have hpadlen : (FatVol.padTo 8 ((((splitB 46 f).getD 0 FatVol.unknownB).take 8).map
      asciiUpper)).length = 8 :=
    padTo_length 8 _ (by simp only [List.length_map, List.length_take]; omega)
  apply List.ext_getElem
  · rw [slice_length _ _ _ (by omega), hpadlen]
  · intro i h1 h2
    have hi : i < 8 := by
      rw [slice_length _ _ _ (by omega)] at h1
      exact h1
    rw [slice_getElem _ _ _ _ (by omega) h1,
      installRecord_name_getB data f c cl sz i hc (by omega)]
    have hgd : (FatVol.nameField ((splitB 46 f).getD 0 FatVol.unknownB)
        ((splitB 46 f).getD 1 FatVol.spaces3)).getD i 0 =
        (FatVol.padTo 8 ((((splitB 46 f).getD 0 FatVol.unknownB).take 8).map
          asciiUpper)).getD i 0 := by
      unfold FatVol.nameField
      rw [List.getD_append _ _ _ _ (by rw [hpadlen]; exact hi)]
    rw [hgd, List.getD_eq_getElem _ _ (by rw [hpadlen]; exact hi)]

theorem installRecord_ext_slice (data f : List Nat) (c cl sz : Nat)
    (hc : c + 32 ≤ data.length) :
    sliceB (FatVol.installRecord data c f cl sz) (c + 8) 3 =
      FatVol.padTo 3 ((((splitB 46 f).getD 1 FatVol.spaces3).take 3).map asciiUpper) := by
  have hlen : (FatVol.installRecord data c f cl sz).length = data.length :=
    installRecord_length data f c cl sz
  have hpadlen : (FatVol.padTo 3 ((((splitB 46 f).getD 1 FatVol.spaces3).take 3).map
      asciiUpper)).length = 3 :=
    padTo_length 3 _ (by simp only [List.length_map, List.length_take]; omega)
  have hpadlen8 : (FatVol.padTo 8 ((((splitB 46 f).getD 0 FatVol.unknownB).take 8).map
      asciiUpper)).length = 8 :=
    padTo_length 8 _ (by simp only [List.length_map, List.length_take]; omega)
  apply List.ext_getElem
  · rw [slice_length _ _ _ (by omega), hpadlen]
  · intro i h1 h2
    have hi : i < 3 := by
      rw [slice_length _ _ _ (by omega)] at h1
      exact h1
    rw [slice_getElem _ _ _ _ (by omega) h1]
    have harg : c + 8 + i = c + (8 + i) := by omega
    rw [harg, installRecord_name_getB data f c cl sz (8 + i) hc (by omega)]
    have hgd : (FatVol.nameField ((splitB 46 f).getD 0 FatVol.unknownB)
        ((splitB 46 f).getD 1 FatVol.spaces3)).getD (8 + i) 0 =
        (FatVol.padTo 3 ((((splitB 46 f).getD 1 FatVol.spaces3).take 3).map
          asciiUpper)).getD i 0 := by
      unfold FatVol.nameField
      have h8 : (FatVol.padTo 8 ((((splitB 46 f).getD 0 FatVol.unknownB).take 8).map
          asciiUpper)).length ≤ 8 + i := by rw [hpadlen8]; omega
      rw [List.getD_append_right _ _ _ _ h8, hpadlen8]
      have hidx : 8 + i - 8 = i := by omega
      rw [hidx]
    rw [hgd, List.getD_eq_getElem _ _ (by rw [hpadlen]; exact hi)]

/-- `write_dir_entry` installs the record at the first free slot. -/
theorem wdLoop_finds_slot (f : List Nat) (cl sz : Nat) (data : List Nat) (k : Nat) :
    ∀ (fuel cursor : Nat), k < fuel →
      (getB data (cursor + 32 * k) = 0 ∨ getB data (cursor + 32 * k) = 0xE5) →
      (∀ j, j < k → getB data (cursor + 32 * j) ≠ 0 ∧ getB data (cursor + 32 * j) ≠ 0xE5) →
      FatVol.wdLoop f cl sz data fuel cursor =
        .ok (FatVol.installRecord data (cursor + 32 * k) f cl sz) := by
  induction k with
  | zero =>
    intro fuel cursor hf hfree _
    rcases fuel with _ | fuel
    · omega
    · simp only [Nat.mul_zero, Nat.add_zero] at hfree ⊢
      simp only [FatVol.wdLoop]
      rw [if_pos hfree]
  | succ k ih =>
    intro fuel cursor hf hfree hprev
    rcases fuel with _ | fuel
    · omega
    · have h0 := hprev 0 (by omega)
      simp only [Nat.mul_zero, Nat.add_zero] at h0
      simp only [FatVol.wdLoop]
      rw [if_neg (fun hc => by rcases hc with h | h; exact h0.1 h; exact h0.2 h)]
      have hidx : ∀ x : Nat, cursor + 32 * (x + 1) = cursor + 32 + 32 * x := fun x => by omega
      rw [hidx k]
      exact ih fuel (cursor + 32) (by omega) (by rwa [hidx k] at hfree)
        (fun j hj => by have := hprev (j + 1) (by omega); rwa [hidx j] at this)

/-- A live record at slot `k`, reachable without meeting a terminator,
appears in the scanned listing. -/
theorem mem_listLoop (d : List Nat) (k : Nat) :
    ∀ (fuel cursor : Nat), k < fuel →
      (∀ j, j < k → getB d (cursor + 32 * j) ≠ 0) →
      cursor + 32 * k + 32 ≤ d.length →
      getB d (cursor + 32 * k) ≠ 0 → getB d (cursor + 32 * k) ≠ 0xE5 →
      getB d (cursor + 32 * k + 11) ≠ 0x0F → getB d (cursor + 32 * k + 11) &&& 0x08 = 0 →
      FatVol.entryAt d (cursor + 32 * k) ∈ FatVol.listLoop d fuel cursor := by
  induction k with
  | zero =>
    intro fuel cursor hf hprev hb h0 h5 h0F h08
    rcases fuel with _ | fuel
    · omega
    · simp only [Nat.mul_zero, Nat.add_zero] at hb h0 h5 h0F h08 ⊢
      simp only [FatVol.listLoop]
      rw [if_neg (by omega : ¬ cursor + 32 > d.length), if_neg h0, if_neg h5,
        if_pos ⟨h0F, h08⟩]
      exact List.mem_cons_self _ _
  | succ k ih =>
    intro fuel cursor hf hprev hb h0 h5 h0F h08
    rcases fuel with _ | fuel
    · omega
    · have hm0 : getB d cursor ≠ 0 := by
        have := hprev 0 (by omega)
        simpa using this
    
      have hidx : ∀ x : Nat, cursor + 32 * (x + 1) = cursor + 32 + 32 * x := fun x => by omega
      have htail : FatVol.entryAt d (cursor + 32 + 32 * k) ∈
          FatVol.listLoop d fuel (cursor + 32) := by
        apply ih fuel (cursor + 32) (by omega)
        · intro j hj
          have := hprev (j + 1) (by omega)
          rwa [hidx j] at this
        · rw [← hidx k]; omega
        · rwa [hidx k] at h0
        · rwa [hidx k] at h5
        · have := h0F
          rwa [hidx k] at this
        · have := h08
          rwa [hidx k] at this
      rw [hidx k]
      simp only [FatVol.listLoop]
      rw [if_neg (by omega : ¬ cursor + 32 > d.length), if_neg hm0]
      by_cases hE : getB d cursor = 0xE5
      · rw [if_pos hE]
        exact htail
      · rw [if_neg hE]
        by_cases hA : getB d (cursor + 11) ≠ 0x0F ∧ getB d (cursor + 11) &&& 0x08 = 0
        · rw [if_pos hA]
          exact List.mem_cons_of_mem _ htail
        · rw [if_neg hA]
          exact htail

theorem lowerB_upper_name (nm ex : List Nat) :
    lowerB (nm.map asciiUpper ++ [46] ++ ex.map asciiUpper) = lowerB (nm ++ [46] ++ ex) := by
  have h1 := lowerB_map_upper nm
  have h2 := lowerB_map_upper ex
  simp only [lowerB] at h1 h2
  simp only [lowerB, List.map_append, h1, h2]

theorem nameField_getD_zero (b0 : Nat) (nmr ex : List Nat) :
    (FatVol.nameField (b0 :: nmr) ex).getD 0 0 = asciiUpper b0 := by
  have h : (b0 :: nmr).take 8 = b0 :: nmr.take 7 := rfl
  simp [FatVol.nameField, FatVol.padTo, h]

/-- Claim C3: the create-then-read round trip on the concrete volume returns
exactly the written bytes, and in general installing a directory entry with
`write_dir_entry` in the first free slot and then scanning the same
directory yields an entry whose case-folded full name, size and (record)
start cluster equal what was written. -/
theorem c3_create_read_roundtrip :
    (FatVol.create_file smallData smallBs 2 aTxtB hiB = .ok smallCreated ∧
     FatVol.read_file smallCreated smallBs 2 aTxtB = .ok hiB) ∧
    (∀ (data : List Nat) (bs : FatVol.BootSector) (dirCl k cluster size : Nat)
      (nm ex : List Nat),
      k < 64 →
      FatVol.offset_from_cluster bs dirCl + 32 * k + 32 ≤ data.length →
      (getB data (FatVol.offset_from_cluster bs dirCl + 32 * k) = 0 ∨
        getB data (FatVol.offset_from_cluster bs dirCl + 32 * k) = 0xE5) →
      (∀ j, j < k → getB data (FatVol.offset_from_cluster bs dirCl + 32 * j) ≠ 0 ∧
        getB data (FatVol.offset_from_cluster bs dirCl + 32 * j) ≠ 0xE5) →
      nm ≠ [] → nm.length ≤ 8 → (∀ b ∈ nm, goodChar b) →
      ex ≠ [] → ex.length ≤ 3 → (∀ b ∈ ex, goodChar b) →
      cluster < 4294967296 → size < 4294967296 →
      ∃ d2, FatVol.write_dir_entry data (FatVol.offset_from_cluster bs dirCl)
          (nm ++ [46] ++ ex) cluster size = .ok d2 ∧
        (∃ e ∈ FatVol.list_directory d2 bs dirCl,
          lowerB e.full_name = lowerB (nm ++ [46] ++ ex) ∧
          e.size = size ∧ e.is_dir = false) ∧
        FatVol.recClusterAt d2 (FatVol.offset_from_cluster bs dirCl + 32 * k) = cluster) := by
  constructor
  · exact ⟨rfl, rfl⟩
  · intro data bs dirCl k cluster size nm ex hk hb hfree hprev hnm1 hnm2 hnm3 hex1 hex2 hex3
      hcl hsz
    obtain ⟨c0, hc0⟩ : ∃ x, x = FatVol.offset_from_cluster bs dirCl := ⟨_, rfl⟩
    rw [← hc0] at hb hfree hprev ⊢
    rcases nm with _ | ⟨b0, nmr⟩
    · exact absurd rfl hnm1
    rcases ex with _ | ⟨e0, exr⟩
    · exact absurd rfl hex1
    have hsplit : splitB 46 ((b0 :: nmr) ++ [46] ++ (e0 :: exr)) = [b0 :: nmr, e0 :: exr] := by
      have hassoc : (b0 :: nmr) ++ [46] ++ (e0 :: exr) = (b0 :: nmr) ++ 46 :: (e0 :: exr) := by
        simp
      rw [hassoc, splitB_sep_append 46 _ _ (fun b hbm => (hnm3 b hbm).2.2),
        splitB_no_sep 46 _ (fun b hbm => (hex3 b hbm).2.2)]
    have hw := wdLoop_finds_slot ((b0 :: nmr) ++ [46] ++ (e0 :: exr)) cluster size data k 64
      c0 hk hfree hprev
    refine ⟨FatVol.installRecord data (c0 + 32 * k) ((b0 :: nmr) ++ [46] ++ (e0 :: exr))
      cluster size, hw, ?_, ?_⟩
    · -- the scanned entry
      have hlen2 : (FatVol.installRecord data (c0 + 32 * k)
          ((b0 :: nmr) ++ [46] ++ (e0 :: exr)) cluster size).length = data.length :=
        installRecord_length _ _ _ _ _
      have hattr : getB (FatVol.installRecord data (c0 + 32 * k)
          ((b0 :: nmr) ++ [46] ++ (e0 :: exr)) cluster size) (c0 + 32 * k + 11) = 0x20 :=
        installRecord_attr _ _ _ _ _ (by omega)
      have hn1 := installRecord_name_slice data ((b0 :: nmr) ++ [46] ++ (e0 :: exr))
        (c0 + 32 * k) cluster size (by omega)
      rw [hsplit] at hn1
      simp only [List.getD_cons_zero] at hn1
      rw [List.take_of_length_le hnm2] at hn1
      have htrim : trimB (sliceB (FatVol.installRecord data (c0 + 32 * k)
          ((b0 :: nmr) ++ [46] ++ (e0 :: exr)) cluster size) (c0 + 32 * k) 8) =
          (b0 :: nmr).map asciiUpper := by
        rw [hn1]
        unfold FatVol.padTo
        exact trimB_pad _ _ (by simp)
          (fun b hbm => by
            obtain ⟨a, ha, rfl⟩ := List.mem_map.mp hbm
            exact (asciiUpper_goodChar (hnm3 a ha)).2.2.2.1)
      have he1 := installRecord_ext_slice data ((b0 :: nmr) ++ [46] ++ (e0 :: exr))
        (c0 + 32 * k) cluster size (by omega)
      rw [hsplit] at he1
      simp only [List.getD_cons_succ, List.getD_cons_zero] at he1
      rw [List.take_of_length_le hex2] at he1
      have htrimE : trimB (sliceB (FatVol.installRecord data (c0 + 32 * k)
          ((b0 :: nmr) ++ [46] ++ (e0 :: exr)) cluster size) (c0 + 32 * k + 8) 3) =
          (e0 :: exr).map asciiUpper := by
        rw [he1]
        unfold FatVol.padTo
        exact trimB_pad _ _ (by simp)
          (fun b hbm => by
            obtain ⟨a, ha, rfl⟩ := List.mem_map.mp hbm
            exact (asciiUpper_goodChar (hex3 a ha)).2.2.2.1)
      have hsizeE : leU32 (FatVol.installRecord data (c0 + 32 * k)
          ((b0 :: nmr) ++ [46] ++ (e0 :: exr)) cluster size) (c0 + 32 * k + 28) = size :=
        installRecord_size _ _ _ _ _ (by omega) hsz
      have hmark : getB (FatVol.installRecord data (c0 + 32 * k)
          ((b0 :: nmr) ++ [46] ++ (e0 :: exr)) cluster size) (c0 + 32 * k) = asciiUpper b0 := by
        have h0 := installRecord_name_getB data ((b0 :: nmr) ++ [46] ++ (e0 :: exr))
          (c0 + 32 * k) cluster size 0 (by omega) (by omega)
        rw [hsplit] at h0
        simp only [List.getD_cons_zero] at h0
        rw [nameField_getD_zero] at h0
        simpa using h0
      have hgood := asciiUpper_goodChar (hnm3 b0 (by simp))
      have hent : FatVol.entryAt (FatVol.installRecord data (c0 + 32 * k)
          ((b0 :: nmr) ++ [46] ++ (e0 :: exr)) cluster size) (c0 + 32 * k) =
          ⟨(b0 :: nmr).map asciiUpper, (e0 :: exr).map asciiUpper, false, size⟩ := by
        unfold FatVol.entryAt
        simp only [FatVol.DirEnt.mk.injEq]
        refine ⟨htrim, htrimE, ?_, hsizeE⟩
        rw [hattr]
        decide
      have hmem : FatVol.entryAt (FatVol.installRecord data (c0 + 32 * k)
          ((b0 :: nmr) ++ [46] ++ (e0 :: exr)) cluster size) (c0 + 32 * k) ∈
          FatVol.list_directory (FatVol.installRecord data (c0 + 32 * k)
            ((b0 :: nmr) ++ [46] ++ (e0 :: exr)) cluster size) bs dirCl := by
        unfold FatVol.list_directory
        rw [← hc0]
        apply mem_listLoop _ k 128 c0 (by omega)
        · intro j hj
          rw [installRecord_frame data _ _ cluster size _ (Or.inl (by omega))]
          exact (hprev j hj).1
        · omega
        · rw [hmark]
          exact hgood.2.2.2.2.1
        · rw [hmark]
          exact hgood.2.2.2.2.2
        · rw [hattr]
          decide
        · rw [hattr]
          decide
      refine ⟨_, hmem, ?_, ?_, ?_⟩
      · rw [hent]
        have hfull : (⟨(b0 :: nmr).map asciiUpper, (e0 :: exr).map asciiUpper, false, size⟩ :
            FatVol.DirEnt).full_name =
            (b0 :: nmr).map asciiUpper ++ [46] ++ (e0 :: exr).map asciiUpper := by
          simp [FatVol.DirEnt.full_name]
        rw [hfull]
        exact lowerB_upper_name (b0 :: nmr) (e0 :: exr)
      · rw [hent]
      · rw [hent]
    · exact installRecord_recCluster _ _ _ _ _ (by omega) hcl

/-- Witness for C3: the general write-then-scan instance on the small
volume: installing `a.txt` (cluster 3, size 2) in the first slot of the
root directory and scanning it back. -/
theorem c3_create_read_roundtrip_witness :
    ∃ d2, FatVol.write_dir_entry smallData (FatVol.offset_from_cluster smallBs 2)
        ([97] ++ [46] ++ [116, 120, 116]) 3 2 = .ok d2 ∧
      (∃ e ∈ FatVol.list_directory d2 smallBs 2,
        lowerB e.full_name = lowerB ([97] ++ [46] ++ [116, 120, 116]) ∧
        e.size = 2 ∧ e.is_dir = false) ∧
      FatVol.recClusterAt d2 (FatVol.offset_from_cluster smallBs 2 + 32 * 0) = 3 :=
  c3_create_read_roundtrip.2 smallData smallBs 2 0 3 2 [97] [116, 120, 116]
    (by decide) (by decide) (Or.inl (by decide)) (fun j hj => absurd hj (Nat.not_lt_zero j))
    (by decide) (by decide) (by decide) (by decide) (by decide) (by decide)
    (by decide) (by decide)
